import Mathlib

/-!
# A shallow embedding of the rhai evaluation core (`src/engine.rs`)

This file translates the tree-walking evaluator of `src/engine.rs` into Lean.
Pure Rust functions become Lean functions; the `&mut Scope` / `&mut self`
threading of the original becomes explicit state passing (the scope, the
print/debug output sinks, and the `&mut` function arguments are all returned
alongside the result).  Rust `panic!` sites are modelled by a dedicated
`panicked` result constructor; recursion is made total with a fuel parameter
whose exhaustion is the distinct `diverge` outcome.

The repository only ships `engine.rs`; the auxiliary modules (`parser.rs`,
`scope.rs`, `result.rs`, `any.rs`) are modelled from the specification where
noted by a `Modelled from the spec:` doc comment.  The build configuration
modelled here has the `no_float` feature on (no float expressions — no claim
touches floats) and the index/array feature enabled.  `INT` (the host-chosen
integer width) is modelled by unbounded `Int`; the evaluator itself performs
no integer arithmetic, only comparisons and the `as usize` casts, which are
modelled faithfully (wrapping where the source casts without a sign check).
-/

namespace Rhai

/-- Source position, used exclusively in error reporting (spec §3); abstracted
to a number. -/
abbrev Pos := Nat

/-- Modelled from the spec: the kind of a scope binding (`scope.rs`). -/
inductive VariableType where
  | Normal
  | Constant
deriving DecidableEq, Repr

/-- Modelled from the spec: the dynamic value (`any.rs`).  The payload kinds the
evaluator itself recognizes: INT, bool, char, string (character addressable,
hence a list of characters), array, unit.  Payload kinds that are opaque to the
evaluator are not needed by any claim. -/
inductive Dynamic where
  | vInt (i : Int)
  | vBool (b : Bool)
  | vChar (c : Char)
  | vStr (s : List Char)
  | vArr (a : List Dynamic)
  | vUnit

/-- Modelled from the spec: the runtime type identity of a value (`TypeId`). -/
inductive TypeId where
  | tInt
  | tBool
  | tChar
  | tString
  | tArray
  | tUnit
deriving DecidableEq, Repr

def Dynamic.typeId : Dynamic → TypeId
  | .vInt _ => .tInt
  | .vBool _ => .tBool
  | .vChar _ => .tChar
  | .vStr _ => .tString
  | .vArr _ => .tArray
  | .vUnit => .tUnit

/-- Modelled from the spec: the raw Rust `type_name` of a payload, fed into the
pretty-name map for diagnostics. -/
def Dynamic.typeName : Dynamic → String
  | .vInt _ => "i64"
  | .vBool _ => "bool"
  | .vChar _ => "char"
  | .vStr _ => "alloc::string::String"
  | .vArr _ => "alloc::vec::Vec<rhai::any::Dynamic>"
  | .vUnit => "()"

/-- Modelled from the spec: a scope binding is a (name, kind, value) triple. -/
structure Binding where
  name : String
  vtype : VariableType
  value : Dynamic

/-- Modelled from the spec: the scope is an ordered sequence of bindings;
index 0 is the oldest binding, `push` appends at the tail. -/
abbrev Scope := List Binding

/-- Search helper for `Scope.get`: prefers the most recently pushed binding,
reporting its absolute index. -/
def scopeGetAux : List Binding → Nat → String → Option (Nat × VariableType × Dynamic)
  | [], _, _ => none
  | b :: rest, i, id =>
    match scopeGetAux rest (i + 1) id with
    | some r => some r
    | none => if b.name = id then some (i, b.vtype, b.value) else none

/-- Modelled from the spec §4.1: `get(name)` returns the most recently pushed
binding of that name as (absolute index, kind, value clone). -/
def Scope.get (s : Scope) (id : String) : Option (Nat × VariableType × Dynamic) :=
  scopeGetAux s 0 id

/-- Modelled from the spec §4.1: `get_mut(name, index)` yields a mutable handle
to the binding at a recorded absolute index; assigning through it replaces the
value and keeps name and kind. -/
def Scope.setVal (s : Scope) (i : Nat) (v : Dynamic) : Scope :=
  match s[i]? with
  | some b => s.set i ⟨b.name, b.vtype, v⟩
  | none => s

/-- Modelled from the spec §4.1: `push` appends a binding at the tail. -/
def Scope.push (s : Scope) (b : Binding) : Scope := s ++ [b]

/-- Modelled from the spec §4.1: `rewind(n)` truncates the scope to length n. -/
def Scope.rewind (s : Scope) (n : Nat) : Scope := s.take n

/-- Modelled from the spec §4.1: `pop` removes the most recent binding. -/
def Scope.pop (s : Scope) : Scope := s.dropLast

/-- Modelled from the spec §7 (`result.rs`): the structured error value.
`Return` and `ErrorLoopBreak` are the control-flow signals carried on the
error channel. -/
inductive EvalAlt where
  | ErrorFunctionNotFound (fn : String) (pos : Pos)
  | ErrorVariableNotFound (id : String) (pos : Pos)
  | ErrorAssignmentToConstant (id : String) (pos : Pos)
  | ErrorAssignmentToUnknownLHS (pos : Pos)
  | ErrorIndexExpr (pos : Pos)
  | ErrorArrayBounds (len : Nat) (idx : Int) (pos : Pos)
  | ErrorStringBounds (len : Nat) (idx : Int) (pos : Pos)
  | ErrorIndexingType (ty : String) (pos : Pos)
  | ErrorCharMismatch (pos : Pos)
  | ErrorDotExpr (msg : String) (pos : Pos)
  | ErrorBooleanArgMismatch (op : String) (pos : Pos)
  | ErrorIfGuard (pos : Pos)
  | ErrorFor (pos : Pos)
  | ErrorRuntime (msg : List Char) (pos : Pos)
  | ErrorLoopBreak (pos : Pos)
  | Return (v : Dynamic) (pos : Pos)

/-- The state of the host's print and debug sinks: the sequence of strings each
callback has received (the default callbacks write a line per call). -/
structure Output where
  printLog : List (List Char)
  debugLog : List (List Char)
deriving DecidableEq, Repr

/-- Modelled from the spec (`parser.rs`): return-statement kind. -/
inductive ReturnType where
  | Return
  | Exception
deriving DecidableEq, Repr

mutual

/-- Modelled from the spec §3 (`parser.rs`): AST expressions, as consumed by
`eval_expr`.  The `no_float` configuration is modelled, so there is no float
literal.  `FunctionCall` carries the optional default value. -/
inductive Expr where
  | IntegerConstant (i : Int) (pos : Pos)
  | StringConstant (s : List Char) (pos : Pos)
  | CharConstant (c : Char) (pos : Pos)
  | Variable (id : String) (pos : Pos)
  | Property (id : String) (pos : Pos)
  | Index (lhs : Expr) (idxExpr : Expr) (pos : Pos)
  | Stmt (stmt : Stmt) (pos : Pos)
  | Assignment (lhs : Expr) (rhs : Expr) (pos : Pos)
  | Dot (lhs : Expr) (rhs : Expr) (pos : Pos)
  | Array (items : List Expr) (pos : Pos)
  | FunctionCall (name : String) (args : List Expr) (defVal : Option Dynamic) (pos : Pos)
  | And (lhs : Expr) (rhs : Expr)
  | Or (lhs : Expr) (rhs : Expr)
  | True (pos : Pos)
  | False (pos : Pos)
  | Unit (pos : Pos)

/-- Modelled from the spec §3 (`parser.rs`): AST statements. -/
inductive Stmt where
  | Noop (pos : Pos)
  | Expr (e : Expr)
  | Block (stmts : List Stmt) (pos : Pos)
  | IfElse (guard : Expr) (ifBody : Stmt) (elseBody : Option Stmt)
  | While (guard : Expr) (body : Stmt)
  | Loop (body : Stmt)
  | For (name : String) (e : Expr) (body : Stmt)
  | Break (pos : Pos)
  | ReturnWithVal (v : Option Expr) (rt : ReturnType) (pos : Pos)
  | Let (name : String) (init : Option Expr) (pos : Pos)
  | Const (name : String) (e : Expr) (pos : Pos)

end

/-- Modelled from the spec: every expression carries a source position used in
error reporting. -/
def Expr.position : Expr → Pos
  | .IntegerConstant _ p => p
  | .StringConstant _ p => p
  | .CharConstant _ p => p
  | .Variable _ p => p
  | .Property _ p => p
  | .Index _ _ p => p
  | .Stmt _ p => p
  | .Assignment _ _ p => p
  | .Dot _ _ p => p
  | .Array _ p => p
  | .FunctionCall _ _ _ p => p
  | .And lhs _ => lhs.position
  | .Or lhs _ => lhs.position
  | .True p => p
  | .False p => p
  | .Unit p => p

/-- Modelled from the spec: the compile-time constant expressions are the
literal constants. -/
def Expr.is_constant : Expr → Bool
  | .IntegerConstant _ _ => true
  | .StringConstant _ _ => true
  | .CharConstant _ _ => true
  | .True _ => true
  | .False _ => true
  | .Unit _ => true
  | _ => false

/-- Modelled from the spec: rendered form of a constant expression, used in the
assignment-to-constant diagnostic. -/
def Expr.get_constant_str : Expr → String
  | .IntegerConstant i _ => toString i
  | .StringConstant s _ => String.mk s
  | .CharConstant c _ => String.mk [c]
  | .True _ => "true"
  | .False _ => "false"
  | .Unit _ => "()"
  | _ => ""

/-- Modelled from the spec: `dump_ast` renders each argument expression's
structured debug form; the exact derived-Debug rendering is abstracted to the
head constructor's name. -/
def exprDebugFmt : Expr → String
  | .IntegerConstant _ _ => "IntegerConstant"
  | .StringConstant _ _ => "StringConstant"
  | .CharConstant _ _ => "CharConstant"
  | .Variable _ _ => "Variable"
  | .Property _ _ => "Property"
  | .Index _ _ _ => "Index"
  | .Stmt _ _ => "Stmt"
  | .Assignment _ _ _ => "Assignment"
  | .Dot _ _ _ => "Dot"
  | .Array _ _ => "Array"
  | .FunctionCall _ _ _ _ => "FunctionCall"
  | .And _ _ => "And"
  | .Or _ _ => "Or"
  | .True _ => "True"
  | .False _ => "False"
  | .Unit _ => "Unit"

/-- Result of a host function: the value, plus the final state of the
argument payloads (a host callable receives mutable borrows of them). -/
inductive HostRes where
  | ok (v : Dynamic) (args : List Dynamic)
  | err (e : EvalAlt)

/-- A registered host function: takes the argument payloads (mutably) and the
call position. -/
def HostFn := List Dynamic → Pos → HostRes

/-- Modelled from the spec §3 (`parser.rs`): a script function definition. -/
structure FnDef where
  name : String
  params : List String
  body : Stmt

/-- Modelled from the spec (`parser.rs`): `FnDef::compare` orders a definition
against a probe (name, arity) lexicographically — name ascending, then arity
ascending — for the binary search of the sorted script-function list. -/
def FnDef.compare (f : FnDef) (name : String) (arity : Nat) : Ordering :=
  if f.name = name then
    if f.params.length = arity then .eq
    else if f.params.length < arity then .lt
    else .gt
  else if f.name < name then .lt
  else .gt

/-- The engine: the registries are read-only during evaluation (spec §5); the
print/debug sinks are modelled by the `Output` log threaded through
evaluation.  `ext_functions` models the host-function hash map as a partial
map keyed by (name, argument type-id sequence). -/
structure Engine where
  ext_functions : String → List TypeId → Option HostFn
  script_functions : List FnDef
  type_iterators : TypeId → Option (Dynamic → List Dynamic)
  type_names : String → Option String

/-- `map_type_name`: map a raw type name to its pretty-print name. -/
def Engine.mapTypeName (en : Engine) (name : String) : String :=
  (en.type_names name).getD name

/-- The loop body of Rust `slice::binary_search_by` (the standard library's
documented algorithm), with fuel; `none` both for "not found" and for the
unreachable fuel exhaustion. -/
def binSearchAux (f : α → Ordering) (xs : List α) : Nat → Nat → Nat → Option Nat
  | 0, _, _ => none
  | fuel + 1, lo, hi =>
    if lo < hi then
      match xs[lo + (hi - lo) / 2]? with
      | none => none
      | some x =>
        match f x with
        | .lt => binSearchAux f xs fuel (lo + (hi - lo) / 2 + 1) hi
        | .gt => binSearchAux f xs fuel lo (lo + (hi - lo) / 2)
        | .eq => some (lo + (hi - lo) / 2)
    else none

/-- Rust `slice::binary_search_by`, returning the found index. -/
def binarySearchBy (f : α → Ordering) (xs : List α) : Option Nat :=
  binSearchAux f xs (xs.length + 1) 0 xs.length

/-- Put the call arguments into a fresh scope as the parameters, as Normal
bindings (`Scope::new` + `extend` in `call_fn_raw`). -/
def bindArgs (params : List String) (args : List Dynamic) : Scope :=
  (params.zip args).map (fun p => ⟨p.1, .Normal, p.2⟩)

/-- `downcast::<String>().map(|s| *s).unwrap_or("error: not a string".into())`
in the print/debug special processing of `call_fn_raw`. -/
def stringOrErrMsg : Dynamic → List Char
  | .vStr s => s
  | _ => "error: not a string".toList

/-- `downcast::<String>().map(|s| *s).unwrap_or("".to_string())` in the
throw-with-value statement. -/
def stringPayload : Dynamic → List Char
  | .vStr s => s
  | _ => []

/-- `matches!(expr, Expr::Assignment(_, _, _))` in `eval_stmt`. -/
def isAssignment : Expr → Bool
  | .Assignment _ _ _ => true
  | _ => false

/-- `IndexSourceType` of `engine.rs`. -/
inductive IndexSourceType where
  | Array
  | String
  | Expression
deriving DecidableEq, Repr

/-- Result of an evaluation step that threads the scope and the output sinks.
`panicked` models a Rust `panic!`; `diverge` is fuel exhaustion. -/
inductive ERes (α : Type) where
  | ok (v : α) (s : Scope) (out : Output)
  | err (e : EvalAlt) (s : Scope) (out : Output)
  | panicked (m : String)
  | diverge

/-- Result of `call_fn_raw`: no scope is threaded (a script call gets a fresh
scope), but the (possibly host-mutated) argument payloads come back. -/
inductive FnRes where
  | ok (v : Dynamic) (args : List Dynamic) (out : Output)
  | err (e : EvalAlt) (out : Output)
  | panicked (m : String)
  | diverge

/-- Result of the dot-chain helpers: also returns the final state of the
`this_ptr` payload, which the helper mutates through `&mut`. -/
inductive HRes where
  | ok (v : Dynamic) (this : Dynamic) (s : Scope) (out : Output)
  | err (e : EvalAlt) (this : Dynamic) (s : Scope) (out : Output)
  | panicked (m : String)
  | diverge

/-- Result of a pure fallible step that may also panic. -/
inductive PRes (α : Type) where
  | ok (v : α)
  | err (e : EvalAlt)
  | panicked (m : String)

/-- Conversion of the script-function evaluation result in `call_fn_raw`: a
`Return(v)` signal becomes the successful result `v`, everything else passes
through; the fresh scope is dropped, the caller's argument payloads are
untouched by a script call. -/
def scriptCallResult (args : List Dynamic) : ERes Dynamic → FnRes
  | .ok v _ o => .ok v args o
  | .err (.Return x _) _ o => .ok x args o
  | .err e _ o => .err e o
  | .panicked m => .panicked m
  | .diverge => .diverge

/-- The `idx as usize` cast of a possibly negative INT (two's complement
reinterpretation on a 64-bit host). -/
def intToUsize (i : Int) : Nat := (i.emod (2 ^ 64)).toNat

/-- `str_replace_char`: replace the character at a character index; `none`
models the out-of-bounds panic of the `.expect` call. -/
def strReplaceChar (s : List Char) (idx : Nat) (newCh : Char) : Option (List Char) :=
  match s[idx]? with
  | none => none
  | some ch => some (if ch = newCh then s else s.set idx newCh)

/-- `get_indexed_value`: read the value at an indexed position of a base value
(array element clone / string character), with bounds errors carrying the
length in elements resp. characters; other base types fail with the pretty
type name. -/
def getIndexedValue (en : Engine) (val : Dynamic) (idx : Int) (valPos idxPos : Pos) :
    Except EvalAlt (Dynamic × IndexSourceType) :=
  match val with
  | .vArr arr =>
    if 0 ≤ idx then
      match arr[idx.toNat]? with
      | some v => .ok (v, .Array)
      | none => .error (.ErrorArrayBounds arr.length idx valPos)
    else .error (.ErrorArrayBounds arr.length idx valPos)
  | .vStr str =>
    if 0 ≤ idx then
      match str[idx.toNat]? with
      | some ch => .ok (.vChar ch, .String)
      | none => .error (.ErrorStringBounds str.length idx valPos)
    else .error (.ErrorStringBounds str.length idx valPos)
  | other => .error (.ErrorIndexingType (en.mapTypeName other.typeName) idxPos)

/-- `update_indexed_value`: write into an indexed position of a local value
copy; string positions require a char; non-indexable targets panic, as does an
out-of-bounds write. -/
def updateIndexedValue (target : Dynamic) (idx : Nat) (newVal : Dynamic) (pos : Pos) :
    PRes Dynamic :=
  match target with
  | .vArr arr =>
    if idx < arr.length then .ok (.vArr (arr.set idx newVal))
    else .panicked "index out of bounds"
  | .vStr str =>
    match newVal with
    | .vChar ch =>
      match strReplaceChar str idx ch with
      | some str2 => .ok (.vStr str2)
      | none => .panicked "string index out of bounds"
    | _ => .err (.ErrorCharMismatch pos)
  | _ => .panicked "array or string source type expected for indexing"

/-- `update_indexed_var_in_scope`: the same update performed in place on a
scope slot recorded by absolute index (`get_mut_by_type` asserts the payload
type — a mismatch panics). -/
def updateIndexedVarInScope (srcType : IndexSourceType) (s : Scope) (_id : String)
    (srcIdx idx : Nat) (newVal : Dynamic) (valPos : Pos) : PRes (Dynamic × Scope) :=
  match srcType with
  | .Array =>
    match (s[srcIdx]?).map Binding.value with
    | some (.vArr arr) =>
      if idx < arr.length then .ok (.vUnit, Scope.setVal s srcIdx (.vArr (arr.set idx newVal)))
      else .panicked "index out of bounds"
    | _ => .panicked "array expected"
  | .String =>
    match (s[srcIdx]?).map Binding.value with
    | some (.vStr str) =>
      match newVal with
      | .vChar ch =>
        match strReplaceChar str idx ch with
        | some str2 => .ok (.vUnit, Scope.setVal s srcIdx (.vStr str2))
        | none => .panicked "string index out of bounds"
      | _ => .err (.ErrorCharMismatch valPos)
    | _ => .panicked "string expected"
  | .Expression => .panicked "expression cannot be indexed for update"

/-- The result tuple of `eval_index_expr`: (source type, optional
(root name, root kind, root scope index), index as usize, indexed value). -/
abbrev IndexInfo := IndexSourceType × Option (String × VariableType × Nat) × Nat × Dynamic

set_option maxHeartbeats 4000000 in
mutual

/-- `call_fn_raw`: universal dispatch.  Script functions (binary search on the
sorted list by (name, arity)) take precedence; then host functions by
(name, argument type-id sequence) with print/debug special processing; then
`type_of`; then the getter/setter diagnostics; then the default value; then
function-not-found. -/
def callFnRaw : Nat → Engine → Output → String → List Dynamic → Option Dynamic → Pos → FnRes
  | 0, _, _, _, _, _, _ => .diverge
  | fuel + 1, en, out, name, args, defVal, pos =>
    match binarySearchBy (fun fd => fd.compare name args.length) en.script_functions with
    | some n =>
      match en.script_functions[n]? with
      | none => .panicked "index out of bounds"
      | some fd =>
        scriptCallResult args (evalStmt fuel en (bindArgs fd.params args) out fd.body)
    | none =>
      match en.ext_functions name (args.map Dynamic.typeId) with
      | some f =>
        match f args pos with
        | .err e => .err e out
        | .ok v args2 =>
          if name = "print" then
            .ok .vUnit args2 ⟨out.printLog ++ [stringOrErrMsg v], out.debugLog⟩
          else if name = "debug" then
            .ok .vUnit args2 ⟨out.printLog, out.debugLog ++ [stringOrErrMsg v]⟩
          else
            .ok v args2 out
      | none =>
        if name = "type_of" ∧ args.length = 1 then
          .ok (.vStr (en.mapTypeName (args.headD .vUnit).typeName).toList) args out
        else if name.take 4 = "get$" then
          .err (.ErrorDotExpr ("- property '" ++ name.drop 4 ++ "' unknown or write-only") pos) out
        else if name.take 4 = "set$" then
          .err (.ErrorDotExpr ("- property '" ++ name.drop 4 ++ "' unknown or read-only") pos) out
        else
          match defVal with
          | some v => .ok v args out
          | none =>
            .err (.ErrorFunctionNotFound
              (name ++ " (" ++ String.intercalate ", "
                (args.map (fun a => en.mapTypeName a.typeName)) ++ ")") pos) out

termination_by structural fuel _ _ _ _ _ _ => fuel

/-- `get_dot_val_helper`: chain-evaluate a dot getter against the current
`this` payload. -/
def getDotValHelper : Nat → Engine → Scope → Output → Dynamic → Expr → HRes
  | 0, _, _, _, _, _ => .diverge
  | fuel + 1, en, s, out, this, dotRhs =>
    match dotRhs with
    | .FunctionCall fnName argExprs defVal pos =>
      match evalExprs fuel en s out argExprs with
      | .ok vals s1 o1 =>
        match callFnRaw fuel en o1 fnName (this :: vals) defVal pos with
        | .ok v args2 o2 => .ok v (args2.headD this) s1 o2
        | .err e o2 => .err e this s1 o2
        | .panicked m => .panicked m
        | .diverge => .diverge
      | .err e s1 o1 => .err e this s1 o1
      | .panicked m => .panicked m
      | .diverge => .diverge
    | .Property id pos =>
      match callFnRaw fuel en out ("get$" ++ id) [this] none pos with
      | .ok v args2 o2 => .ok v (args2.headD this) s o2
      | .err e o2 => .err e this s o2
      | .panicked m => .panicked m
      | .diverge => .diverge
    | .Index idxLhs idxExpr idxPos =>
      match idxLhs with
      | .Property id pos =>
        match callFnRaw fuel en out ("get$" ++ id) [this] none pos with
        | .ok val args2 o2 =>
          match evalIndexValue fuel en s o2 idxExpr with
          | .ok idx s1 o3 =>
            match getIndexedValue en val idx idxExpr.position idxPos with
            | .ok (v, _) => .ok v (args2.headD this) s1 o3
            | .error e => .err e (args2.headD this) s1 o3
          | .err e s1 o3 => .err e (args2.headD this) s1 o3
          | .panicked m => .panicked m
          | .diverge => .diverge
        | .err e o2 => .err e this s o2
        | .panicked m => .panicked m
        | .diverge => .diverge
      | .Index ia ib ic =>
        match getDotValHelper fuel en s out this (.Index ia ib ic) with
        | .ok val this1 s1 o1 =>
          match evalIndexValue fuel en s1 o1 idxExpr with
          | .ok idx s2 o2 =>
            match getIndexedValue en val idx idxExpr.position idxPos with
            | .ok (v, _) => .ok v this1 s2 o2
            | .error e => .err e this1 s2 o2
          | .err e s2 o2 => .err e this1 s2 o2
          | .panicked m => .panicked m
          | .diverge => .diverge
        | .err e this1 s1 o1 => .err e this1 s1 o1
        | .panicked m => .panicked m
        | .diverge => .diverge
      | _ => .err (.ErrorDotExpr "" dotRhs.position) this s out
    | .Dot dotLhs2 rhs2 _ =>
      match dotLhs2 with
      | .Property id pos =>
        match callFnRaw fuel en out ("get$" ++ id) [this] none pos with
        | .ok v args2 o2 =>
          match getDotValHelper fuel en s o2 v rhs2 with
          | .ok r _ s2 o3 => .ok r (args2.headD this) s2 o3
          | .err e _ s2 o3 => .err e (args2.headD this) s2 o3
          | .panicked m => .panicked m
          | .diverge => .diverge
        | .err e o2 => .err e this s o2
        | .panicked m => .panicked m
        | .diverge => .diverge
      | .Index idxLhs2 idxExpr2 idxPos2 =>
        match idxLhs2 with
        | .Property id pos =>
          match callFnRaw fuel en out ("get$" ++ id) [this] none pos with
          | .ok val args2 o2 =>
            match evalIndexValue fuel en s o2 idxExpr2 with
            | .ok idx s1 o3 =>
              match getIndexedValue en val idx idxExpr2.position idxPos2 with
              | .ok (v, _) =>
                match getDotValHelper fuel en s1 o3 v rhs2 with
                | .ok r _ s2 o4 => .ok r (args2.headD this) s2 o4
                | .err e _ s2 o4 => .err e (args2.headD this) s2 o4
                | .panicked m => .panicked m
                | .diverge => .diverge
              | .error e => .err e (args2.headD this) s1 o3
            | .err e s1 o3 => .err e (args2.headD this) s1 o3
            | .panicked m => .panicked m
            | .diverge => .diverge
          | .err e o2 => .err e this s o2
          | .panicked m => .panicked m
          | .diverge => .diverge
        | .Index ia ib ic =>
          match getDotValHelper fuel en s out this (.Index ia ib ic) with
          | .ok val this1 s1 o1 =>
            match evalIndexValue fuel en s1 o1 idxExpr2 with
            | .ok idx s2 o2 =>
              match getIndexedValue en val idx idxExpr2.position idxPos2 with
              | .ok (v, _) =>
                match getDotValHelper fuel en s2 o2 v rhs2 with
                | .ok r _ s3 o3 => .ok r this1 s3 o3
                | .err e _ s3 o3 => .err e this1 s3 o3
                | .panicked m => .panicked m
                | .diverge => .diverge
              | .error e => .err e this1 s2 o2
            | .err e s2 o2 => .err e this1 s2 o2
            | .panicked m => .panicked m
            | .diverge => .diverge
          | .err e this1 s1 o1 => .err e this1 s1 o1
          | .panicked m => .panicked m
          | .diverge => .diverge
        | _ => .err (.ErrorDotExpr "" dotRhs.position) this s out
      | _ => .err (.ErrorDotExpr "" dotLhs2.position) this s out
    | _ => .err (.ErrorDotExpr "" dotRhs.position) this s out

termination_by structural fuel _ _ _ _ _ => fuel

/-- `get_dot_val`: evaluate a dot chain getter from its root.  A variable root
is cloned into a local target; the (possibly helper-mutated) target is written
back to the same slot whether or not the helper succeeded. -/
def getDotVal : Nat → Engine → Scope → Output → Expr → Expr → ERes Dynamic
  | 0, _, _, _, _, _ => .diverge
  | fuel + 1, en, s, out, dotLhs, dotRhs =>
    match dotLhs with
    | .Variable id pos =>
      match Scope.get s id with
      | none => .err (.ErrorVariableNotFound id pos) s out
      | some (srcIdx, _, target) =>
        match getDotValHelper fuel en s out target dotRhs with
        | .ok v this2 s1 o1 => .ok v (Scope.setVal s1 srcIdx this2) o1
        | .err e this2 s1 o1 => .err e (Scope.setVal s1 srcIdx this2) o1
        | .panicked m => .panicked m
        | .diverge => .diverge
    | .Index idxLhs idxExpr idxPos =>
      match evalIndexExpr fuel en s out idxLhs idxExpr idxPos with
      | .ok (srcType, src, idx, target) s1 o1 =>
        match getDotValHelper fuel en s1 o1 target dotRhs with
        | .ok v this2 s2 o2 =>
          match src with
          | some (id, .Constant, _) =>
            .err (.ErrorAssignmentToConstant id idxLhs.position) s2 o2
          | some (id, .Normal, srcIdx) =>
            match updateIndexedVarInScope srcType s2 id srcIdx idx this2 dotRhs.position with
            | .ok (_, s3) => .ok v s3 o2
            | .err e => .err e s2 o2
            | .panicked m => .panicked m
          | none => .ok v s2 o2
        | .err e this2 s2 o2 =>
          match src with
          | some (id, .Constant, _) =>
            .err (.ErrorAssignmentToConstant id idxLhs.position) s2 o2
          | some (id, .Normal, srcIdx) =>
            match updateIndexedVarInScope srcType s2 id srcIdx idx this2 dotRhs.position with
            | .ok (_, s3) => .err e s3 o2
            | .err e2 => .err e2 s2 o2
            | .panicked m => .panicked m
          | none => .err e s2 o2
        | .panicked m => .panicked m
        | .diverge => .diverge
      | .err e s1 o1 => .err e s1 o1
      | .panicked m => .panicked m
      | .diverge => .diverge
    | expr =>
      match evalExpr fuel en s out expr with
      | .ok target s1 o1 =>
        match getDotValHelper fuel en s1 o1 target dotRhs with
        | .ok v _ s2 o2 => .ok v s2 o2
        | .err e _ s2 o2 => .err e s2 o2
        | .panicked m => .panicked m
        | .diverge => .diverge
      | .err e s1 o1 => .err e s1 o1
      | .panicked m => .panicked m
      | .diverge => .diverge

termination_by structural fuel _ _ _ _ _ => fuel

/-- `eval_index_value`: the index sub-expression must evaluate to an INT. -/
def evalIndexValue : Nat → Engine → Scope → Output → Expr → ERes Int
  | 0, _, _, _, _ => .diverge
  | fuel + 1, en, s, out, idxExpr =>
    match evalExpr fuel en s out idxExpr with
    | .ok v s1 o1 =>
      match v with
      | .vInt i => .ok i s1 o1
      | _ => .err (.ErrorIndexExpr idxExpr.position) s1 o1
    | .err e s1 o1 => .err e s1 o1
    | .panicked m => .panicked m
    | .diverge => .diverge

termination_by structural fuel _ _ _ _ => fuel

/-- `eval_index_expr`: evaluate the index value, then resolve the base — a
variable root records (name, kind, scope index) for later writeback, any other
base is a temporary. -/
def evalIndexExpr : Nat → Engine → Scope → Output → Expr → Expr → Pos → ERes IndexInfo
  | 0, _, _, _, _, _, _ => .diverge
  | fuel + 1, en, s, out, lhs, idxExpr, idxPos =>
    match evalIndexValue fuel en s out idxExpr with
    | .ok idx s1 o1 =>
      match lhs with
      | .Variable id _ =>
        match Scope.get s1 id with
        | none => .err (.ErrorVariableNotFound id lhs.position) s1 o1
        | some (srcIdx, vt, v) =>
          match getIndexedValue en v idx idxExpr.position idxPos with
          | .ok (val, srcType) => .ok (srcType, some (id, vt, srcIdx), idx.toNat, val) s1 o1
          | .error e => .err e s1 o1
      | expr =>
        match evalExpr fuel en s1 o1 expr with
        | .ok v s2 o2 =>
          match getIndexedValue en v idx idxExpr.position idxPos with
          | .ok (val, _) => .ok (.Expression, none, idx.toNat, val) s2 o2
          | .error e => .err e s2 o2
        | .err e s2 o2 => .err e s2 o2
        | .panicked m => .panicked m
        | .diverge => .diverge
    | .err e s1 o1 => .err e s1 o1
    | .panicked m => .panicked m
    | .diverge => .diverge

termination_by structural fuel _ _ _ _ _ _ => fuel

/-- `set_dot_val_helper`: chain-evaluate a dot setter against the current
`this` payload. -/
def setDotValHelper : Nat → Engine → Scope → Output → Dynamic → Expr → Dynamic → Pos → HRes
  | 0, _, _, _, _, _, _, _ => .diverge
  | fuel + 1, en, s, out, this, dotRhs, newVal, valPos =>
    match dotRhs with
    | .Property id pos =>
      match callFnRaw fuel en out ("set$" ++ id) [this, newVal] none pos with
      | .ok v args2 o2 => .ok v (args2.headD this) s o2
      | .err e o2 => .err e this s o2
      | .panicked m => .panicked m
      | .diverge => .diverge
    | .Index lhs idxExpr idxPos =>
      match lhs with
      | .Property id pos =>
        match callFnRaw fuel en out ("get$" ++ id) [this] none pos with
        | .ok v args2 o2 =>
          match evalIndexValue fuel en s o2 idxExpr with
          | .ok idx s1 o3 =>
            match updateIndexedValue v (intToUsize idx) newVal valPos with
            | .ok v2 =>
              match callFnRaw fuel en o3 ("set$" ++ id) [args2.headD this, v2] none pos with
              | .ok r args3 o4 => .ok r (args3.headD (args2.headD this)) s1 o4
              | .err e o4 => .err e (args2.headD this) s1 o4
              | .panicked m => .panicked m
              | .diverge => .diverge
            | .err e => .err e (args2.headD this) s1 o3
            | .panicked m => .panicked m
          | .err e s1 o3 => .err e (args2.headD this) s1 o3
          | .panicked m => .panicked m
          | .diverge => .diverge
        | .err e o2 => .err e this s o2
        | .panicked m => .panicked m
        | .diverge => .diverge
      | _ => .err (.ErrorDotExpr "for assignment" idxPos) this s out
    | .Dot lhs rhs2 _ =>
      match lhs with
      | .Property id pos =>
        match callFnRaw fuel en out ("get$" ++ id) [this] none pos with
        | .ok v args2 o2 =>
          match setDotValHelper fuel en s o2 v rhs2 newVal valPos with
          | .ok _ v2 s1 o3 =>
            match callFnRaw fuel en o3 ("set$" ++ id) [args2.headD this, v2] none pos with
            | .ok r args3 o4 => .ok r (args3.headD (args2.headD this)) s1 o4
            | .err e o4 => .err e (args2.headD this) s1 o4
            | .panicked m => .panicked m
            | .diverge => .diverge
          | .err e _ s1 o3 => .err e (args2.headD this) s1 o3
          | .panicked m => .panicked m
          | .diverge => .diverge
        | .err e o2 => .err e this s o2
        | .panicked m => .panicked m
        | .diverge => .diverge
      | .Index idxLhs2 idxExpr2 idxPos2 =>
        match idxLhs2 with
        | .Property id pos =>
          match callFnRaw fuel en out ("get$" ++ id) [this] none pos with
          | .ok v args2 o2 =>
            match evalIndexValue fuel en s o2 idxExpr2 with
            | .ok idx s1 o3 =>
              match getIndexedValue en v idx idxExpr2.position idxPos2 with
              | .ok (target, _) =>
                match setDotValHelper fuel en s1 o3 target rhs2 newVal valPos with
                | .ok _ target2 s2 o4 =>
                  match updateIndexedValue v (intToUsize idx) target2 valPos with
                  | .ok v2 =>
                    match callFnRaw fuel en o4 ("set$" ++ id) [args2.headD this, v2] none pos with
                    | .ok r args3 o5 => .ok r (args3.headD (args2.headD this)) s2 o5
                    | .err e o5 => .err e (args2.headD this) s2 o5
                    | .panicked m => .panicked m
                    | .diverge => .diverge
                  | .err e => .err e (args2.headD this) s2 o4
                  | .panicked m => .panicked m
                | .err e _ s2 o4 => .err e (args2.headD this) s2 o4
                | .panicked m => .panicked m
                | .diverge => .diverge
              | .error e => .err e (args2.headD this) s1 o3
            | .err e s1 o3 => .err e (args2.headD this) s1 o3
            | .panicked m => .panicked m
            | .diverge => .diverge
          | .err e o2 => .err e this s o2
          | .panicked m => .panicked m
          | .diverge => .diverge
        | _ => .err (.ErrorDotExpr "for assignment" idxPos2) this s out
      | _ => .err (.ErrorDotExpr "for assignment" lhs.position) this s out
    | _ => .err (.ErrorDotExpr "for assignment" dotRhs.position) this s out

termination_by structural fuel _ _ _ _ _ _ _ => fuel

/-- `set_dot_val`: evaluate a dot chain setter from its root, rejecting a
Constant root; as in the getter, the local root copy is written back whether
or not the helper succeeded. -/
def setDotVal : Nat → Engine → Scope → Output → Expr → Expr → Dynamic → Pos → Pos → ERes Dynamic
  | 0, _, _, _, _, _, _, _, _ => .diverge
  | fuel + 1, en, s, out, dotLhs, dotRhs, newVal, valPos, opPos =>
    match dotLhs with
    | .Variable id pos =>
      match Scope.get s id with
      | none => .err (.ErrorVariableNotFound id pos) s out
      | some (srcIdx, vt, target) =>
        match vt with
        | .Constant => .err (.ErrorAssignmentToConstant id opPos) s out
        | .Normal =>
          match setDotValHelper fuel en s out target dotRhs newVal valPos with
          | .ok v this2 s1 o1 => .ok v (Scope.setVal s1 srcIdx this2) o1
          | .err e this2 s1 o1 => .err e (Scope.setVal s1 srcIdx this2) o1
          | .panicked m => .panicked m
          | .diverge => .diverge
    | .Index lhs idxExpr idxPos =>
      match evalIndexExpr fuel en s out lhs idxExpr idxPos with
      | .ok (srcType, src, idx, target) s1 o1 =>
        match setDotValHelper fuel en s1 o1 target dotRhs newVal valPos with
        | .ok v this2 s2 o2 =>
          match src with
          | some (id, .Constant, _) =>
            .err (.ErrorAssignmentToConstant id lhs.position) s2 o2
          | some (id, .Normal, srcIdx) =>
            match updateIndexedVarInScope srcType s2 id srcIdx idx this2 valPos with
            | .ok (_, s3) => .ok v s3 o2
            | .err e => .err e s2 o2
            | .panicked m => .panicked m
          | none => .ok v s2 o2
        | .err e this2 s2 o2 =>
          match src with
          | some (id, .Constant, _) =>
            .err (.ErrorAssignmentToConstant id lhs.position) s2 o2
          | some (id, .Normal, srcIdx) =>
            match updateIndexedVarInScope srcType s2 id srcIdx idx this2 valPos with
            | .ok (_, s3) => .err e s3 o2
            | .err e2 => .err e2 s2 o2
            | .panicked m => .panicked m
          | none => .err e s2 o2
        | .panicked m => .panicked m
        | .diverge => .diverge
      | .err e s1 o1 => .err e s1 o1
      | .panicked m => .panicked m
      | .diverge => .diverge
    | _ => .err (.ErrorDotExpr "for assignment" dotLhs.position) s out

termination_by structural fuel _ _ _ _ _ _ _ _ => fuel

/-- `eval_expr`: the recursive expression evaluator. -/
def evalExpr : Nat → Engine → Scope → Output → Expr → ERes Dynamic
  | 0, _, _, _, _ => .diverge
  | fuel + 1, en, s, out, e =>
    match e with
    | .IntegerConstant i _ => .ok (.vInt i) s out
    | .StringConstant str _ => .ok (.vStr str) s out
    | .CharConstant c _ => .ok (.vChar c) s out
    | .Variable id pos =>
      match Scope.get s id with
      | some (_, _, v) => .ok v s out
      | none => .err (.ErrorVariableNotFound id pos) s out
    | .Property _ _ => .panicked "unexpected property."
    | .Index lhs idxExpr idxPos =>
      match evalIndexExpr fuel en s out lhs idxExpr idxPos with
      | .ok (_, _, _, v) s1 o1 => .ok v s1 o1
      | .err e2 s1 o1 => .err e2 s1 o1
      | .panicked m => .panicked m
      | .diverge => .diverge
    | .Stmt stmt _ => evalStmt fuel en s out stmt
    | .Assignment lhs rhs opPos =>
      match evalExpr fuel en s out rhs with
      | .ok rhsVal s1 o1 =>
        match lhs with
        | .Variable name pos =>
          match Scope.get s1 name with
          | some (idx, .Normal, _) => .ok rhsVal (Scope.setVal s1 idx rhsVal) o1
          | some (_, .Constant, _) => .err (.ErrorAssignmentToConstant name opPos) s1 o1
          | none => .err (.ErrorVariableNotFound name pos) s1 o1
        | .Index idxLhs idxExpr idxPos =>
          match evalIndexExpr fuel en s1 o1 idxLhs idxExpr idxPos with
          | .ok (srcType, src, idx, _) s2 o2 =>
            match src with
            | some (id, .Constant, _) =>
              .err (.ErrorAssignmentToConstant id idxLhs.position) s2 o2
            | some (id, .Normal, srcIdx) =>
              match updateIndexedVarInScope srcType s2 id srcIdx idx rhsVal rhs.position with
              | .ok (v, s3) => .ok v s3 o2
              | .err e2 => .err e2 s2 o2
              | .panicked m => .panicked m
            | none => .err (.ErrorAssignmentToUnknownLHS idxLhs.position) s2 o2
          | .err e2 s2 o2 => .err e2 s2 o2
          | .panicked m => .panicked m
          | .diverge => .diverge
        | .Dot dotLhs dotRhs _ =>
          setDotVal fuel en s1 o1 dotLhs dotRhs rhsVal rhs.position opPos
        | lhsExpr =>
          if lhsExpr.is_constant then
            .err (.ErrorAssignmentToConstant lhsExpr.get_constant_str lhsExpr.position) s1 o1
          else
            .err (.ErrorAssignmentToUnknownLHS lhsExpr.position) s1 o1
      | .err e2 s1 o1 => .err e2 s1 o1
      | .panicked m => .panicked m
      | .diverge => .diverge
    | .Dot lhs rhs _ => getDotVal fuel en s out lhs rhs
    | .Array items _ =>
      match evalExprs fuel en s out items with
      | .ok vals s1 o1 => .ok (.vArr vals) s1 o1
      | .err e2 s1 o1 => .err e2 s1 o1
      | .panicked m => .panicked m
      | .diverge => .diverge
    | .FunctionCall fnName argExprs defVal pos =>
      if fnName = "dump_ast" then
        let pos2 := match argExprs with
          | [] => pos
          | a :: _ => a.position
        let result := String.intercalate "\n" (argExprs.map exprDebugFmt)
        match callFnRaw fuel en out "print" [.vStr result.toList] none pos2 with
        | .ok v _ o1 => .ok v s o1
        | .err e2 o1 => .err e2 s o1
        | .panicked m => .panicked m
        | .diverge => .diverge
      else
        match evalExprs fuel en s out argExprs with
        | .ok vals s1 o1 =>
          match callFnRaw fuel en o1 fnName vals defVal pos with
          | .ok v _ o2 => .ok v s1 o2
          | .err e2 o2 => .err e2 s1 o2
          | .panicked m => .panicked m
          | .diverge => .diverge
        | .err e2 s1 o1 => .err e2 s1 o1
        | .panicked m => .panicked m
        | .diverge => .diverge
    | .And lhs rhs =>
      match evalExpr fuel en s out lhs with
      | .ok v s1 o1 =>
        match v with
        | .vBool false => .ok (.vBool false) s1 o1
        | .vBool true =>
          match evalExpr fuel en s1 o1 rhs with
          | .ok v2 s2 o2 =>
            match v2 with
            | .vBool b => .ok (.vBool b) s2 o2
            | _ => .err (.ErrorBooleanArgMismatch "AND" rhs.position) s2 o2
          | .err e2 s2 o2 => .err e2 s2 o2
          | .panicked m => .panicked m
          | .diverge => .diverge
        | _ => .err (.ErrorBooleanArgMismatch "AND" lhs.position) s1 o1
      | .err e2 s1 o1 => .err e2 s1 o1
      | .panicked m => .panicked m
      | .diverge => .diverge
    | .Or lhs rhs =>
      match evalExpr fuel en s out lhs with
      | .ok v s1 o1 =>
        match v with
        | .vBool true => .ok (.vBool true) s1 o1
        | .vBool false =>
          match evalExpr fuel en s1 o1 rhs with
          | .ok v2 s2 o2 =>
            match v2 with
            | .vBool b => .ok (.vBool b) s2 o2
            | _ => .err (.ErrorBooleanArgMismatch "OR" rhs.position) s2 o2
          | .err e2 s2 o2 => .err e2 s2 o2
          | .panicked m => .panicked m
          | .diverge => .diverge
        | _ => .err (.ErrorBooleanArgMismatch "OR" lhs.position) s1 o1
      | .err e2 s1 o1 => .err e2 s1 o1
      | .panicked m => .panicked m
      | .diverge => .diverge
    | .True _ => .ok (.vBool true) s out
    | .False _ => .ok (.vBool false) s out
    | .Unit _ => .ok .vUnit s out

termination_by structural fuel _ _ _ _ => fuel

/-- Left-to-right evaluation of an expression list (`collect::<Result<Vec<_>>>`
over the argument or array-item expressions): the first failure aborts. -/
def evalExprs : Nat → Engine → Scope → Output → List Expr → ERes (List Dynamic)
  | 0, _, _, _, _ => .diverge
  | _ + 1, _, s, out, [] => .ok [] s out
  | fuel + 1, en, s, out, e :: rest =>
    match evalExpr fuel en s out e with
    | .ok v s1 o1 =>
      match evalExprs fuel en s1 o1 rest with
      | .ok vs s2 o2 => .ok (v :: vs) s2 o2
      | .err e2 s2 o2 => .err e2 s2 o2
      | .panicked m => .panicked m
      | .diverge => .diverge
    | .err e2 s1 o1 => .err e2 s1 o1
    | .panicked m => .panicked m
    | .diverge => .diverge

termination_by structural fuel _ _ _ _ => fuel

/-- The statement loop of `Stmt::Block`: evaluate each statement, keeping the
last result, stopping at the first error (the rewind is done by the caller). -/
def blockLoop : Nat → Engine → Scope → Output → List Stmt → ERes Dynamic
  | 0, _, _, _, _ => .diverge
  | _ + 1, _, s, out, [] => .ok .vUnit s out
  | fuel + 1, en, s, out, stmt :: rest =>
    match evalStmt fuel en s out stmt with
    | .ok v s1 o1 =>
      match rest with
      | [] => .ok v s1 o1
      | _ => blockLoop fuel en s1 o1 rest
    | .err e2 s1 o1 => .err e2 s1 o1
    | .panicked m => .panicked m
    | .diverge => .diverge

termination_by structural fuel _ _ _ _ => fuel

/-- The iteration loop of `Stmt::For`: overwrite the loop binding (recorded by
absolute index) with each yielded value and evaluate the body; a `LoopBreak`
signal ends the loop normally. -/
def forLoop : Nat → Engine → Scope → Output → Nat → Stmt → List Dynamic → ERes Dynamic
  | 0, _, _, _, _, _, _ => .diverge
  | _ + 1, _, s, out, _, _, [] => .ok .vUnit s out
  | fuel + 1, en, s, out, idx, body, a :: rest =>
    match evalStmt fuel en (Scope.setVal s idx a) out body with
    | .ok _ s1 o1 => forLoop fuel en s1 o1 idx body rest
    | .err (.ErrorLoopBreak _) s1 o1 => .ok .vUnit s1 o1
    | .err e2 s1 o1 => .err e2 s1 o1
    | .panicked m => .panicked m
    | .diverge => .diverge

termination_by structural fuel _ _ _ _ _ _ => fuel

/-- `eval_stmt`: the statement evaluator. -/
def evalStmt : Nat → Engine → Scope → Output → Stmt → ERes Dynamic
  | 0, _, _, _, _ => .diverge
  | fuel + 1, en, s, out, st =>
    match st with
    | .Noop _ => .ok .vUnit s out
    | .Expr e =>
      match evalExpr fuel en s out e with
      | .ok v s1 o1 =>
        if isAssignment e then .ok .vUnit s1 o1 else .ok v s1 o1
      | .err e2 s1 o1 => .err e2 s1 o1
      | .panicked m => .panicked m
      | .diverge => .diverge
    | .Block stmts _ =>
      match blockLoop fuel en s out stmts with
      | .ok v s1 o1 => .ok v (Scope.rewind s1 s.length) o1
      | .err e2 s1 o1 => .err e2 (Scope.rewind s1 s.length) o1
      | .panicked m => .panicked m
      | .diverge => .diverge
    | .IfElse guard ifBody elseBody =>
      match evalExpr fuel en s out guard with
      | .ok v s1 o1 =>
        match v with
        | .vBool true => evalStmt fuel en s1 o1 ifBody
        | .vBool false =>
          match elseBody with
          | some eb => evalStmt fuel en s1 o1 eb
          | none => .ok .vUnit s1 o1
        | _ => .err (.ErrorIfGuard guard.position) s1 o1
      | .err e2 s1 o1 => .err e2 s1 o1
      | .panicked m => .panicked m
      | .diverge => .diverge
    | .While guard body =>
      match evalExpr fuel en s out guard with
      | .ok v s1 o1 =>
        match v with
        | .vBool true =>
          match evalStmt fuel en s1 o1 body with
          | .ok _ s2 o2 => evalStmt fuel en s2 o2 (.While guard body)
          | .err (.ErrorLoopBreak _) s2 o2 => .ok .vUnit s2 o2
          | .err e2 s2 o2 => .err e2 s2 o2
          | .panicked m => .panicked m
          | .diverge => .diverge
        | .vBool false => .ok .vUnit s1 o1
        | _ => .err (.ErrorIfGuard guard.position) s1 o1
      | .err e2 s1 o1 => .err e2 s1 o1
      | .panicked m => .panicked m
      | .diverge => .diverge
    | .Loop body =>
      match evalStmt fuel en s out body with
      | .ok _ s1 o1 => evalStmt fuel en s1 o1 (.Loop body)
      | .err (.ErrorLoopBreak _) s1 o1 => .ok .vUnit s1 o1
      | .err e2 s1 o1 => .err e2 s1 o1
      | .panicked m => .panicked m
      | .diverge => .diverge
    | .For name e body =>
      match evalExpr fuel en s out e with
      | .ok arr s1 o1 =>
        match en.type_iterators arr.typeId with
        | some iterFn =>
          match forLoop fuel en (Scope.push s1 ⟨name, .Normal, .vUnit⟩) o1
              ((Scope.push s1 ⟨name, .Normal, .vUnit⟩).length - 1) body (iterFn arr) with
          | .ok _ s3 o3 => .ok .vUnit (Scope.pop s3) o3
          | .err e2 s3 o3 => .err e2 s3 o3
          | .panicked m => .panicked m
          | .diverge => .diverge
        | none => .err (.ErrorFor e.position) s1 o1
      | .err e2 s1 o1 => .err e2 s1 o1
      | .panicked m => .panicked m
      | .diverge => .diverge
    | .Break pos => .err (.ErrorLoopBreak pos) s out
    | .ReturnWithVal none .Return pos => .err (.Return .vUnit pos) s out
    | .ReturnWithVal (some a) .Return pos =>
      match evalExpr fuel en s out a with
      | .ok v s1 o1 => .err (.Return v pos) s1 o1
      | .err e2 s1 o1 => .err e2 s1 o1
      | .panicked m => .panicked m
      | .diverge => .diverge
    | .ReturnWithVal none .Exception pos => .err (.ErrorRuntime [] pos) s out
    | .ReturnWithVal (some a) .Exception pos =>
      match evalExpr fuel en s out a with
      | .ok v s1 o1 => .err (.ErrorRuntime (stringPayload v) pos) s1 o1
      | .err e2 s1 o1 => .err e2 s1 o1
      | .panicked m => .panicked m
      | .diverge => .diverge
    | .Let name (some e) _ =>
      match evalExpr fuel en s out e with
      | .ok v s1 o1 => .ok .vUnit (Scope.push s1 ⟨name, .Normal, v⟩) o1
      | .err e2 s1 o1 => .err e2 s1 o1
      | .panicked m => .panicked m
      | .diverge => .diverge
    | .Let name none _ => .ok .vUnit (Scope.push s ⟨name, .Normal, .vUnit⟩) out
    | .Const name e _ =>
      if e.is_constant then
        match evalExpr fuel en s out e with
        | .ok v s1 o1 => .ok .vUnit (Scope.push s1 ⟨name, .Constant, v⟩) o1
        | .err e2 s1 o1 => .err e2 s1 o1
        | .panicked m => .panicked m
        | .diverge => .diverge
      else .panicked "constant expression not constant!"

termination_by structural fuel _ _ _ _ => fuel

end

/-- The empty output state. -/
def out0 : Output := ⟨[], []⟩

/-- An engine with no registrations at all. -/
def emptyEngine : Engine :=
  ⟨fun _ _ => none, [], fun _ => none, fun _ => none⟩


/-- Rank of an `Ordering` for stating sortedness relative to a probe. -/
def ordRank : Ordering → Nat
  | .lt => 0
  | .eq => 1
  | .gt => 2

/-- The list is sorted as seen through the comparator `f` (all `lt` entries
before all `eq` entries before all `gt` entries) — the precondition of
`slice::binary_search_by`, instantiated at a fixed probe. -/
def SortedProbe (f : α → Ordering) (xs : List α) : Prop :=
  ∀ (i j : Nat) (a b : α), i < j → xs[i]? = some a → xs[j]? = some b →
    ordRank (f a) ≤ ordRank (f b)

/-- The engine's host functions never mutate their argument payloads (their
`&mut` borrows are used read-only). -/
def ArgPreserving (en : Engine) : Prop :=
  ∀ name tids f args pos v args2,
    en.ext_functions name tids = some f → f args pos = .ok v args2 → args2 = args

/-- The scope in the result is at least as long as the given one (holds for
the ok and the err outcome of every scope-threading evaluation step). -/
def eresGE {α : Type} (s : Scope) : ERes α → Prop
  | .ok _ s1 _ => s.length ≤ s1.length
  | .err _ s1 _ => s.length ≤ s1.length
  | .panicked _ => True
  | .diverge => True

/-- As `eresGE`, for the dot-chain helper results. -/
def hresGE (s : Scope) : HRes → Prop
  | .ok _ _ s1 _ => s.length ≤ s1.length
  | .err _ _ s1 _ => s.length ≤ s1.length
  | .panicked _ => True
  | .diverge => True

/-- The `this` payload in the result is the one passed in (what the dot-chain
helpers guarantee when the host functions are argument-preserving). -/
def hresThis (this : Dynamic) : HRes → Prop
  | .ok _ t _ _ => t = this
  | .err _ t _ _ => t = this
  | .panicked _ => True
  | .diverge => True

/-- A script-function registry with a single function `f(x) { x }`. -/
def enScr : Engine :=
  ⟨fun _ _ => none, [⟨"f", ["x"], .Expr (.Variable "x" 0)⟩], fun _ => none, fun _ => none⟩

/-- A host getter `get$p` that mutates its `this` argument to 999 and returns 1
(host callables receive mutable borrows, and the source's own comment
acknowledges "getters whose semantics are not read-only"). -/
def getPMut : HostFn := fun _ _ => .ok (.vInt 1) [.vInt 999]

/-- An engine whose only registration is the mutating getter `get$p` for INT. -/
def enMutGet : Engine :=
  ⟨fun name tids => if name = "get$p" ∧ tids = [.tInt] then some getPMut else none,
    [], fun _ => none, fun _ => none⟩

/-- A host getter `get$p` for INT that returns 1 and leaves `this` unchanged. -/
def getPId : HostFn := fun args _ => .ok (.vInt 1) args

/-- An engine whose only registration is the argument-preserving getter
`get$p` for INT. -/
def enGetId : Engine :=
  ⟨fun name tids => if name = "get$p" ∧ tids = [.tInt] then some getPId else none,
    [], fun _ => none, fun _ => none⟩

/-- An engine with the usual iterator for arrays (yield the elements). -/
def enIter : Engine :=
  ⟨fun _ _ => none, [],
    fun tid => if tid = .tArray then
      some (fun d => match d with | .vArr a => a | _ => []) else none,
    fun _ => none⟩

/-- A host `print`/`debug` implementation for a single string argument, which
returns its argument (a string) unchanged. -/
def printFn : HostFn := fun args _ =>
  match args with
  | [.vStr s] => .ok (.vStr s) args
  | _ => .err (.ErrorRuntime [] 0)

/-- An engine registering `printFn` under both `print` and `debug` for a
single string argument. -/
def enPrint : Engine :=
  ⟨fun name tids =>
    if (name = "print" ∨ name = "debug") ∧ tids = [.tString] then some printFn else none,
    [], fun _ => none, fun _ => none⟩

theorem scopeGetAux_some {l : List Binding} :
    ∀ {k id i vt v}, scopeGetAux l k id = some (i, vt, v) →
      k ≤ i ∧ i - k < l.length ∧ l[i - k]? = some ⟨id, vt, v⟩ := by
  induction l with
  | nil => intro k id i vt v h; simp [scopeGetAux] at h
  | cons b rest ih =>
    intro k id i vt v h
    rw [scopeGetAux] at h
    cases hrec : scopeGetAux rest (k + 1) id with
    | some r =>
      rw [hrec] at h
      simp only [] at h
      injection h with h
      subst h
      obtain ⟨h1, h2, h3⟩ := ih hrec
      refine ⟨by omega, by simp; omega, ?_⟩
      have hik : i - k = (i - (k + 1)) + 1 := by omega
      rw [hik, List.getElem?_cons_succ]
      exact h3
    | none =>
      rw [hrec] at h
      simp only [] at h
      split at h
      · rename_i hname
        simp only [Option.some.injEq, Prod.mk.injEq] at h
        obtain ⟨hk, hvt, hv⟩ := h
        subst hk
        subst hvt
        subst hv
        refine ⟨le_refl _, by simp, ?_⟩
        simp only [Nat.sub_self, List.getElem?_cons_zero, Option.some.injEq]
        cases b
        simp_all
      · exact absurd h (by simp)

theorem scopeGet_some {s : Scope} {id : String} {i : Nat} {vt : VariableType} {v : Dynamic}
    (h : Scope.get s id = some (i, vt, v)) :
    i < s.length ∧ s[i]? = some ⟨id, vt, v⟩ := by
  obtain ⟨-, h2, h3⟩ := scopeGetAux_some (l := s) h
  simpa using ⟨h2, h3⟩

theorem scope_setVal_length (s : Scope) (i : Nat) (v : Dynamic) :
    (Scope.setVal s i v).length = s.length := by
  unfold Scope.setVal
  cases h : s[i]? <;> simp

theorem scope_setVal_getElem_self {s : Scope} {i : Nat} {b : Binding}
    (h : s[i]? = some b) (v : Dynamic) :
    (Scope.setVal s i v)[i]? = some ⟨b.name, b.vtype, v⟩ := by
  have hlt := (List.getElem?_eq_some.mp h).1
  unfold Scope.setVal
  rw [h, List.getElem?_set_self']
  simp [List.getElem?_eq_getElem hlt]

theorem binSearchAux_sound {f : α → Ordering} {xs : List α} :
    ∀ {fuel lo hi i}, binSearchAux f xs fuel lo hi = some i →
      ∃ a, xs[i]? = some a ∧ f a = .eq := by
  intro fuel
  induction fuel with
  | zero => intro lo hi i h; simp [binSearchAux] at h
  | succ fuel ih =>
    intro lo hi i h
    rw [binSearchAux] at h
    split at h
    · cases hx : xs[lo + (hi - lo) / 2]? with
      | none => rw [hx] at h; simp at h
      | some x =>
        rw [hx] at h
        simp only [] at h
        cases hc : f x with
        | lt => rw [hc] at h; simp only [] at h; exact ih h
        | gt => rw [hc] at h; simp only [] at h; exact ih h
        | eq =>
          rw [hc] at h
          simp only [Option.some.injEq] at h
          subst h
          exact ⟨x, hx, hc⟩
    · exact absurd h (by simp)

theorem binSearchAux_complete {f : α → Ordering} {xs : List α}
    (hsort : SortedProbe f xs) :
    ∀ fuel lo hi, hi ≤ xs.length → hi - lo < fuel →
      (∃ w a, lo ≤ w ∧ w < hi ∧ xs[w]? = some a ∧ f a = .eq) →
      ∃ i, binSearchAux f xs fuel lo hi = some i := by
  intro fuel
  induction fuel with
  | zero => intro lo hi _ hf _; omega
  | succ fuel ih =>
    intro lo hi hhi hf hw
    obtain ⟨w, a, hlow, hwhi, hwa, heq⟩ := hw
    have hlo : lo < hi := by omega
    have hmidlt : lo + (hi - lo) / 2 < hi := by omega
    have hmidlo : lo ≤ lo + (hi - lo) / 2 := by omega
    have hmidlen : lo + (hi - lo) / 2 < xs.length := by omega
    have hx : xs[lo + (hi - lo) / 2]? = some xs[lo + (hi - lo) / 2] :=
      List.getElem?_eq_getElem hmidlen
    rw [binSearchAux, if_pos hlo, hx]
    simp only []
    cases hc : f xs[lo + (hi - lo) / 2] with
    | eq => exact ⟨_, rfl⟩
    | lt =>
      have hwgt : lo + (hi - lo) / 2 < w := by
        by_contra hle
        push_neg at hle
        rcases Nat.lt_or_ge w (lo + (hi - lo) / 2) with hlt | hge
        · have := hsort w (lo + (hi - lo) / 2) a _ hlt hwa hx
          rw [hc, heq] at this
          simp [ordRank] at this
        · have hwe : w = lo + (hi - lo) / 2 := by omega
          subst hwe
          rw [hwa] at hx
          injection hx with hx
          rw [← hx, heq] at hc
          cases hc
      exact ih (lo + (hi - lo) / 2 + 1) hi hhi (by omega)
        ⟨w, a, by omega, hwhi, hwa, heq⟩
    | gt =>
      have hwlt : w < lo + (hi - lo) / 2 := by
        by_contra hle
        push_neg at hle
        rcases Nat.lt_or_ge (lo + (hi - lo) / 2) w with hlt | hge
        · have := hsort (lo + (hi - lo) / 2) w _ a hlt hx hwa
          rw [hc, heq] at this
          simp [ordRank] at this
        · have hwe : w = lo + (hi - lo) / 2 := by omega
          subst hwe
          rw [hwa] at hx
          injection hx with hx
          rw [← hx, heq] at hc
          cases hc
      exact ih lo (lo + (hi - lo) / 2) (by omega) (by omega)
        ⟨w, a, hlow, hwlt, hwa, heq⟩

theorem binarySearchBy_complete {f : α → Ordering} {xs : List α}
    (hsort : SortedProbe f xs) (hw : ∃ (w : Nat) (a : α), xs[w]? = some a ∧ f a = .eq) :
    ∃ (i : Nat) (a : α), binarySearchBy f xs = some i ∧ xs[i]? = some a ∧ f a = .eq := by
  obtain ⟨w, a, hwa, heq⟩ := hw
  have hwlt : w < xs.length := (List.getElem?_eq_some.mp hwa).1
  obtain ⟨i, hi⟩ := binSearchAux_complete hsort (xs.length + 1) 0 xs.length
    (le_refl _) (by omega) ⟨w, a, Nat.zero_le w, hwlt, hwa, heq⟩
  obtain ⟨b, hb, hbq⟩ := binSearchAux_sound hi
  exact ⟨i, b, hi, hb, hbq⟩

theorem scope_push_length (s : Scope) (b : Binding) :
    (Scope.push s b).length = s.length + 1 := by
  simp [Scope.push]

theorem scope_rewind_length (s : Scope) (n : Nat) :
    (Scope.rewind s n).length = min n s.length := by
  simp [Scope.rewind]

theorem scope_pop_length (s : Scope) : (Scope.pop s).length = s.length - 1 := by
  simp [Scope.pop]

theorem updateIVS_ok_length {st : IndexSourceType} {s : Scope} {id : String}
    {si i : Nat} {nv : Dynamic} {vp : Pos} {d : Dynamic} {s2 : Scope}
    (h : updateIndexedVarInScope st s id si i nv vp = .ok (d, s2)) :
    s2.length = s.length := by
  unfold updateIndexedVarInScope at h
  repeat' split at h
  all_goals try (simp only [PRes.ok.injEq, Prod.mk.injEq] at h)
  all_goals first
    | (obtain ⟨h1, h2⟩ := h; subst h2; exact scope_setVal_length _ _ _)
    | simp_all

theorem eresGE_mono {α : Type} {s s1 : Scope} (h : s.length ≤ s1.length) {r : ERes α}
    (hr : eresGE s1 r) : eresGE s r := by
  cases r <;> simp only [eresGE] at * <;> first | trivial | omega

theorem hresGE_mono {s s1 : Scope} (h : s.length ≤ s1.length) {r : HRes}
    (hr : hresGE s1 r) : hresGE s r := by
  cases r <;> simp only [hresGE] at * <;> first | trivial | omega

theorem fnDef_compare_eq_iff {f : FnDef} {name : String} {arity : Nat} :
    f.compare name arity = .eq ↔ f.name = name ∧ f.params.length = arity := by
  unfold FnDef.compare
  split
  · split
    · simp_all
    · split <;> simp_all
  · split <;> simp_all

theorem eres_len_ok {α : Type} {s : Scope} {r : ERes α} (h : eresGE s r) {v : α}
    {s1 : Scope} {o1 : Output} (he : r = .ok v s1 o1) : s.length ≤ s1.length := by
  subst he; exact h

theorem eres_len_err {α : Type} {s : Scope} {r : ERes α} (h : eresGE s r) {e : EvalAlt}
    {s1 : Scope} {o1 : Output} (he : r = .err e s1 o1) : s.length ≤ s1.length := by
  subst he; exact h

theorem hres_len_ok {s : Scope} {r : HRes} (h : hresGE s r) {v t : Dynamic}
    {s1 : Scope} {o1 : Output} (he : r = .ok v t s1 o1) : s.length ≤ s1.length := by
  subst he; exact h

theorem hres_len_err {s : Scope} {r : HRes} (h : hresGE s r) {e : EvalAlt} {t : Dynamic}
    {s1 : Scope} {o1 : Output} (he : r = .err e t s1 o1) : s.length ≤ s1.length := by
  subst he; exact h

/-- The scope only ever grows during evaluation: every scope-threading function
of the evaluator returns (on the ok and the err path alike) a scope at least as
long as the one it was given.  (Blocks rewind exactly to their entry length,
loops pop what they pushed — or leak on the error path — and nothing ever
truncates below the entry length.) -/
theorem lenMono : ∀ fuel : Nat,
    (∀ en s out this rhs, hresGE s (getDotValHelper fuel en s out this rhs)) ∧
    (∀ en s out l r, eresGE s (getDotVal fuel en s out l r)) ∧
    (∀ en s out e, eresGE s (evalIndexValue fuel en s out e)) ∧
    (∀ en s out l e p, eresGE s (evalIndexExpr fuel en s out l e p)) ∧
    (∀ en s out this rhs nv vp, hresGE s (setDotValHelper fuel en s out this rhs nv vp)) ∧
    (∀ en s out l r nv vp op, eresGE s (setDotVal fuel en s out l r nv vp op)) ∧
    (∀ en s out e, eresGE s (evalExpr fuel en s out e)) ∧
    (∀ en s out es, eresGE s (evalExprs fuel en s out es)) ∧
    (∀ en s out sts, eresGE s (blockLoop fuel en s out sts)) ∧
    (∀ en s out i b vs, eresGE s (forLoop fuel en s out i b vs)) ∧
    (∀ en s out st, eresGE s (evalStmt fuel en s out st)) := by
  intro fuel
  induction fuel with
  | zero =>
    refine ⟨?_, ?_, ?_, ?_, ?_, ?_, ?_, ?_, ?_, ?_, ?_⟩ <;> intros <;>
      simp [getDotValHelper, getDotVal, evalIndexValue, evalIndexExpr, setDotValHelper,
        setDotVal, evalExpr, evalExprs, blockLoop, forLoop, evalStmt, hresGE, eresGE]
  | succ fuel ih =>
    obtain ⟨ihHelp, ihGet, ihIdxV, ihIdxE, ihSetH, ihSetD, ihExpr, ihExprs, ihBlock,
      ihFor, ihStmt⟩ := ih
    refine ⟨?_, ?_, ?_, ?_, ?_, ?_, ?_, ?_, ?_, ?_, ?_⟩
    · -- getDotValHelper
      intro en s out this rhs
      cases rhs
      case FunctionCall fnName argExprs defVal pos =>
        simp only [getDotValHelper]
        cases h1 : evalExprs fuel en s out argExprs with
        | ok vals s1 o1 =>
          try simp only []
          have g1 := eres_len_ok (ihExprs en s out argExprs) h1
          cases h2 : callFnRaw fuel en o1 fnName (this :: vals) defVal pos <;>
            (try simp only []) <;> simp only [hresGE] <;> first | trivial | omega
        | err e2 s1 o1 =>
          try simp only []
          have g1 := eres_len_err (ihExprs en s out argExprs) h1
          (try simp only []); simp only [hresGE]; omega
        | panicked m => simp [hresGE]
        | diverge => simp [hresGE]
      case Property id pos =>
        simp only [getDotValHelper]
        cases h2 : callFnRaw fuel en out ("get$" ++ id) [this] none pos <;> simp [hresGE]
      case Index idxLhs idxExpr idxPos =>
        cases idxLhs
        case Property id pos =>
          simp only [getDotValHelper]
          cases h2 : callFnRaw fuel en out ("get$" ++ id) [this] none pos with
          | ok val args2 o2 =>
            try simp only []
            cases h3 : evalIndexValue fuel en s o2 idxExpr with
            | ok idx s1 o3 =>
              try simp only []
              have g3 := eres_len_ok (ihIdxV en s o2 idxExpr) h3
              cases h4 : getIndexedValue en val idx idxExpr.position idxPos with
              | ok p => obtain ⟨v4, st4⟩ := p; (try simp only []); simp only [hresGE]; omega
              | error e4 => (try simp only []); simp only [hresGE]; omega
            | err e3 s1 o3 =>
              try simp only []
              have g3 := eres_len_err (ihIdxV en s o2 idxExpr) h3
              (try simp only []); simp only [hresGE]; omega
            | panicked m => simp [hresGE]
            | diverge => simp [hresGE]
          | err e2 o2 => simp [hresGE]
          | panicked m => simp [hresGE]
          | diverge => simp [hresGE]
        case Index ia ib ic =>
          simp only [getDotValHelper]
          cases h2 : getDotValHelper fuel en s out this (.Index ia ib ic) with
          | ok val t1 s1 o1 =>
            try simp only []
            have g2 := hres_len_ok (ihHelp en s out this (.Index ia ib ic)) h2
            cases h3 : evalIndexValue fuel en s1 o1 idxExpr with
            | ok idx s2 o2 =>
              try simp only []
              have g3 := eres_len_ok (ihIdxV en s1 o1 idxExpr) h3
              cases h4 : getIndexedValue en val idx idxExpr.position idxPos with
              | ok p => obtain ⟨v4, st4⟩ := p; (try simp only []); simp only [hresGE]; omega
              | error e4 => (try simp only []); simp only [hresGE]; omega
            | err e3 s2 o2 =>
              try simp only []
              have g3 := eres_len_err (ihIdxV en s1 o1 idxExpr) h3
              (try simp only []); simp only [hresGE]; omega
            | panicked m => simp [hresGE]
            | diverge => simp [hresGE]
          | err e2 t1 s1 o1 =>
            try simp only []
            have g2 := hres_len_err (ihHelp en s out this (.Index ia ib ic)) h2
            (try simp only []); simp only [hresGE]; omega
          | panicked m => simp [hresGE]
          | diverge => simp [hresGE]
        all_goals simp [getDotValHelper, hresGE]
      case Dot dotLhs2 rhs2 dpos =>
        cases dotLhs2
        case Property id pos =>
          simp only [getDotValHelper]
          cases h2 : callFnRaw fuel en out ("get$" ++ id) [this] none pos with
          | ok v args2 o2 =>
            try simp only []
            cases h3 : getDotValHelper fuel en s o2 v rhs2 with
            | ok r t s2 o3 =>
              try simp only []
              have g3 := hres_len_ok (ihHelp en s o2 v rhs2) h3
              (try simp only []); simp only [hresGE]; omega
            | err e3 t s2 o3 =>
              try simp only []
              have g3 := hres_len_err (ihHelp en s o2 v rhs2) h3
              (try simp only []); simp only [hresGE]; omega
            | panicked m => simp [hresGE]
            | diverge => simp [hresGE]
          | err e2 o2 => simp [hresGE]
          | panicked m => simp [hresGE]
          | diverge => simp [hresGE]
        case Index idxLhs2 idxExpr2 idxPos2 =>
          cases idxLhs2
          case Property id pos =>
            simp only [getDotValHelper]
            cases h2 : callFnRaw fuel en out ("get$" ++ id) [this] none pos with
            | ok val args2 o2 =>
              try simp only []
              cases h3 : evalIndexValue fuel en s o2 idxExpr2 with
              | ok idx s1 o3 =>
                try simp only []
                have g3 := eres_len_ok (ihIdxV en s o2 idxExpr2) h3
                cases h4 : getIndexedValue en val idx idxExpr2.position idxPos2 with
                | ok p =>
                  try simp only []
                  obtain ⟨v4, st4⟩ := p
                  try simp only []
                  cases h5 : getDotValHelper fuel en s1 o3 v4 rhs2 with
                  | ok r t s2 o4 =>
                    try simp only []
                    have g5 := hres_len_ok (ihHelp en s1 o3 v4 rhs2) h5
                    (try simp only []); simp only [hresGE]; omega
                  | err e5 t s2 o4 =>
                    try simp only []
                    have g5 := hres_len_err (ihHelp en s1 o3 v4 rhs2) h5
                    (try simp only []); simp only [hresGE]; omega
                  | panicked m => simp [hresGE]
                  | diverge => simp [hresGE]
                | error e4 => (try simp only []); simp only [hresGE]; omega
              | err e3 s1 o3 =>
                try simp only []
                have g3 := eres_len_err (ihIdxV en s o2 idxExpr2) h3
                (try simp only []); simp only [hresGE]; omega
              | panicked m => simp [hresGE]
              | diverge => simp [hresGE]
            | err e2 o2 => simp [hresGE]
            | panicked m => simp [hresGE]
            | diverge => simp [hresGE]
          case Index ia ib ic =>
            simp only [getDotValHelper]
            cases h2 : getDotValHelper fuel en s out this (.Index ia ib ic) with
            | ok val t1 s1 o1 =>
              try simp only []
              have g2 := hres_len_ok (ihHelp en s out this (.Index ia ib ic)) h2
              cases h3 : evalIndexValue fuel en s1 o1 idxExpr2 with
              | ok idx s2 o2 =>
                try simp only []
                have g3 := eres_len_ok (ihIdxV en s1 o1 idxExpr2) h3
                cases h4 : getIndexedValue en val idx idxExpr2.position idxPos2 with
                | ok p =>
                  try simp only []
                  obtain ⟨v4, st4⟩ := p
                  try simp only []
                  cases h5 : getDotValHelper fuel en s2 o2 v4 rhs2 with
                  | ok r t s3 o3 =>
                    try simp only []
                    have g5 := hres_len_ok (ihHelp en s2 o2 v4 rhs2) h5
                    (try simp only []); simp only [hresGE]; omega
                  | err e5 t s3 o3 =>
                    try simp only []
                    have g5 := hres_len_err (ihHelp en s2 o2 v4 rhs2) h5
                    (try simp only []); simp only [hresGE]; omega
                  | panicked m => simp [hresGE]
                  | diverge => simp [hresGE]
                | error e4 => (try simp only []); simp only [hresGE]; omega
              | err e3 s2 o2 =>
                try simp only []
                have g3 := eres_len_err (ihIdxV en s1 o1 idxExpr2) h3
                (try simp only []); simp only [hresGE]; omega
              | panicked m => simp [hresGE]
              | diverge => simp [hresGE]
            | err e2 t1 s1 o1 =>
              try simp only []
              have g2 := hres_len_err (ihHelp en s out this (.Index ia ib ic)) h2
              (try simp only []); simp only [hresGE]; omega
            | panicked m => simp [hresGE]
            | diverge => simp [hresGE]
          all_goals simp [getDotValHelper, hresGE]
        all_goals simp [getDotValHelper, hresGE]
      all_goals simp [getDotValHelper, hresGE]
    · -- getDotVal
      intro en s out l r
      cases l
      case Variable id pos =>
        simp only [getDotVal]
        cases h0 : Scope.get s id with
        | none => simp [eresGE]
        | some p =>
          try simp only []
          obtain ⟨srcIdx, vt, target⟩ := p
          try simp only []
          cases h1 : getDotValHelper fuel en s out target r with
          | ok v t1 s1 o1 =>
            try simp only []
            have g1 := hres_len_ok (ihHelp en s out target r) h1
            (try simp only []); simp only [eresGE, scope_setVal_length]; omega
          | err e1 t1 s1 o1 =>
            try simp only []
            have g1 := hres_len_err (ihHelp en s out target r) h1
            (try simp only []); simp only [eresGE, scope_setVal_length]; omega
          | panicked m => simp [eresGE]
          | diverge => simp [eresGE]
      case Index idxLhs idxExpr idxPos =>
        simp only [getDotVal]
        cases h1 : evalIndexExpr fuel en s out idxLhs idxExpr idxPos with
        | ok info s1 o1 =>
          try simp only []
          obtain ⟨srcType, src, idx, target⟩ := info
          try simp only []
          have g1 := eres_len_ok (ihIdxE en s out idxLhs idxExpr idxPos) h1
          cases h2 : getDotValHelper fuel en s1 o1 target r with
          | ok v t2 s2 o2 =>
            try simp only []
            have g2 := hres_len_ok (ihHelp en s1 o1 target r) h2
            split
            · (try simp only []); simp only [eresGE]; omega
            · rename_i id2 srcIdx2
              cases h3 : updateIndexedVarInScope srcType s2 id2 srcIdx2 idx t2 r.position with
              | ok p =>
                try simp only []
                obtain ⟨d3, s3⟩ := p
                try simp only []
                have g3 := updateIVS_ok_length h3
                (try simp only []); simp only [eresGE]; omega
              | err e3 => (try simp only []); simp only [eresGE]; omega
              | panicked m => simp [eresGE]
            · (try simp only []); simp only [eresGE]; omega
          | err e2 t2 s2 o2 =>
            try simp only []
            have g2 := hres_len_err (ihHelp en s1 o1 target r) h2
            split
            · (try simp only []); simp only [eresGE]; omega
            · rename_i id2 srcIdx2
              cases h3 : updateIndexedVarInScope srcType s2 id2 srcIdx2 idx t2 r.position with
              | ok p =>
                try simp only []
                obtain ⟨d3, s3⟩ := p
                try simp only []
                have g3 := updateIVS_ok_length h3
                (try simp only []); simp only [eresGE]; omega
              | err e3 => (try simp only []); simp only [eresGE]; omega
              | panicked m => simp [eresGE]
            · (try simp only []); simp only [eresGE]; omega
          | panicked m => simp [eresGE]
          | diverge => simp [eresGE]
        | err e1 s1 o1 =>
          try simp only []
          have g1 := eres_len_err (ihIdxE en s out idxLhs idxExpr idxPos) h1
          (try simp only []); simp only [eresGE]; omega
        | panicked m => simp [eresGE]
        | diverge => simp [eresGE]
      case IntegerConstant iv ip =>
        simp only [getDotVal]
        cases h1 : evalExpr fuel en s out (Expr.IntegerConstant iv ip) with
        | ok target s1 o1 =>
          try simp only []
          have g1 := eres_len_ok (ihExpr en s out (Expr.IntegerConstant iv ip)) h1
          cases h2 : getDotValHelper fuel en s1 o1 target r with
          | ok v t2 s2 o2 =>
            try simp only []
            have g2 := hres_len_ok (ihHelp en s1 o1 target r) h2
            (try simp only []); simp only [eresGE]; omega
          | err e2 t2 s2 o2 =>
            try simp only []
            have g2 := hres_len_err (ihHelp en s1 o1 target r) h2
            (try simp only []); simp only [eresGE]; omega
          | panicked m => simp [eresGE]
          | diverge => simp [eresGE]
        | err e1 s1 o1 =>
          try simp only []
          have g1 := eres_len_err (ihExpr en s out (Expr.IntegerConstant iv ip)) h1
          (try simp only []); simp only [eresGE]; omega
        | panicked m => simp [eresGE]
        | diverge => simp [eresGE]
      case StringConstant sv ip =>
        simp only [getDotVal]
        cases h1 : evalExpr fuel en s out (Expr.StringConstant sv ip) with
        | ok target s1 o1 =>
          try simp only []
          have g1 := eres_len_ok (ihExpr en s out (Expr.StringConstant sv ip)) h1
          cases h2 : getDotValHelper fuel en s1 o1 target r with
          | ok v t2 s2 o2 =>
            try simp only []
            have g2 := hres_len_ok (ihHelp en s1 o1 target r) h2
            (try simp only []); simp only [eresGE]; omega
          | err e2 t2 s2 o2 =>
            try simp only []
            have g2 := hres_len_err (ihHelp en s1 o1 target r) h2
            (try simp only []); simp only [eresGE]; omega
          | panicked m => simp [eresGE]
          | diverge => simp [eresGE]
        | err e1 s1 o1 =>
          try simp only []
          have g1 := eres_len_err (ihExpr en s out (Expr.StringConstant sv ip)) h1
          (try simp only []); simp only [eresGE]; omega
        | panicked m => simp [eresGE]
        | diverge => simp [eresGE]
      case CharConstant cv ip =>
        simp only [getDotVal]
        cases h1 : evalExpr fuel en s out (Expr.CharConstant cv ip) with
        | ok target s1 o1 =>
          try simp only []
          have g1 := eres_len_ok (ihExpr en s out (Expr.CharConstant cv ip)) h1
          cases h2 : getDotValHelper fuel en s1 o1 target r with
          | ok v t2 s2 o2 =>
            try simp only []
            have g2 := hres_len_ok (ihHelp en s1 o1 target r) h2
            (try simp only []); simp only [eresGE]; omega
          | err e2 t2 s2 o2 =>
            try simp only []
            have g2 := hres_len_err (ihHelp en s1 o1 target r) h2
            (try simp only []); simp only [eresGE]; omega
          | panicked m => simp [eresGE]
          | diverge => simp [eresGE]
        | err e1 s1 o1 =>
          try simp only []
          have g1 := eres_len_err (ihExpr en s out (Expr.CharConstant cv ip)) h1
          (try simp only []); simp only [eresGE]; omega
        | panicked m => simp [eresGE]
        | diverge => simp [eresGE]
      case Property pid ip =>
        simp only [getDotVal]
        cases h1 : evalExpr fuel en s out (Expr.Property pid ip) with
        | ok target s1 o1 =>
          try simp only []
          have g1 := eres_len_ok (ihExpr en s out (Expr.Property pid ip)) h1
          cases h2 : getDotValHelper fuel en s1 o1 target r with
          | ok v t2 s2 o2 =>
            try simp only []
            have g2 := hres_len_ok (ihHelp en s1 o1 target r) h2
            (try simp only []); simp only [eresGE]; omega
          | err e2 t2 s2 o2 =>
            try simp only []
            have g2 := hres_len_err (ihHelp en s1 o1 target r) h2
            (try simp only []); simp only [eresGE]; omega
          | panicked m => simp [eresGE]
          | diverge => simp [eresGE]
        | err e1 s1 o1 =>
          try simp only []
          have g1 := eres_len_err (ihExpr en s out (Expr.Property pid ip)) h1
          (try simp only []); simp only [eresGE]; omega
        | panicked m => simp [eresGE]
        | diverge => simp [eresGE]
      case Stmt stm ip =>
        simp only [getDotVal]
        cases h1 : evalExpr fuel en s out (Expr.Stmt stm ip) with
        | ok target s1 o1 =>
          try simp only []
          have g1 := eres_len_ok (ihExpr en s out (Expr.Stmt stm ip)) h1
          cases h2 : getDotValHelper fuel en s1 o1 target r with
          | ok v t2 s2 o2 =>
            try simp only []
            have g2 := hres_len_ok (ihHelp en s1 o1 target r) h2
            (try simp only []); simp only [eresGE]; omega
          | err e2 t2 s2 o2 =>
            try simp only []
            have g2 := hres_len_err (ihHelp en s1 o1 target r) h2
            (try simp only []); simp only [eresGE]; omega
          | panicked m => simp [eresGE]
          | diverge => simp [eresGE]
        | err e1 s1 o1 =>
          try simp only []
          have g1 := eres_len_err (ihExpr en s out (Expr.Stmt stm ip)) h1
          (try simp only []); simp only [eresGE]; omega
        | panicked m => simp [eresGE]
        | diverge => simp [eresGE]
      case Assignment al ar ap =>
        simp only [getDotVal]
        cases h1 : evalExpr fuel en s out (Expr.Assignment al ar ap) with
        | ok target s1 o1 =>
          try simp only []
          have g1 := eres_len_ok (ihExpr en s out (Expr.Assignment al ar ap)) h1
          cases h2 : getDotValHelper fuel en s1 o1 target r with
          | ok v t2 s2 o2 =>
            try simp only []
            have g2 := hres_len_ok (ihHelp en s1 o1 target r) h2
            (try simp only []); simp only [eresGE]; omega
          | err e2 t2 s2 o2 =>
            try simp only []
            have g2 := hres_len_err (ihHelp en s1 o1 target r) h2
            (try simp only []); simp only [eresGE]; omega
          | panicked m => simp [eresGE]
          | diverge => simp [eresGE]
        | err e1 s1 o1 =>
          try simp only []
          have g1 := eres_len_err (ihExpr en s out (Expr.Assignment al ar ap)) h1
          (try simp only []); simp only [eresGE]; omega
        | panicked m => simp [eresGE]
        | diverge => simp [eresGE]
      case Dot dl dr dp =>
        simp only [getDotVal]
        cases h1 : evalExpr fuel en s out (Expr.Dot dl dr dp) with
        | ok target s1 o1 =>
          try simp only []
          have g1 := eres_len_ok (ihExpr en s out (Expr.Dot dl dr dp)) h1
          cases h2 : getDotValHelper fuel en s1 o1 target r with
          | ok v t2 s2 o2 =>
            try simp only []
            have g2 := hres_len_ok (ihHelp en s1 o1 target r) h2
            (try simp only []); simp only [eresGE]; omega
          | err e2 t2 s2 o2 =>
            try simp only []
            have g2 := hres_len_err (ihHelp en s1 o1 target r) h2
            (try simp only []); simp only [eresGE]; omega
          | panicked m => simp [eresGE]
          | diverge => simp [eresGE]
        | err e1 s1 o1 =>
          try simp only []
          have g1 := eres_len_err (ihExpr en s out (Expr.Dot dl dr dp)) h1
          (try simp only []); simp only [eresGE]; omega
        | panicked m => simp [eresGE]
        | diverge => simp [eresGE]
      case Array its ip =>
        simp only [getDotVal]
        cases h1 : evalExpr fuel en s out (Expr.Array its ip) with
        | ok target s1 o1 =>
          try simp only []
          have g1 := eres_len_ok (ihExpr en s out (Expr.Array its ip)) h1
          cases h2 : getDotValHelper fuel en s1 o1 target r with
          | ok v t2 s2 o2 =>
            try simp only []
            have g2 := hres_len_ok (ihHelp en s1 o1 target r) h2
            (try simp only []); simp only [eresGE]; omega
          | err e2 t2 s2 o2 =>
            try simp only []
            have g2 := hres_len_err (ihHelp en s1 o1 target r) h2
            (try simp only []); simp only [eresGE]; omega
          | panicked m => simp [eresGE]
          | diverge => simp [eresGE]
        | err e1 s1 o1 =>
          try simp only []
          have g1 := eres_len_err (ihExpr en s out (Expr.Array its ip)) h1
          (try simp only []); simp only [eresGE]; omega
        | panicked m => simp [eresGE]
        | diverge => simp [eresGE]
      case FunctionCall fn ags dv ip =>
        simp only [getDotVal]
        cases h1 : evalExpr fuel en s out (Expr.FunctionCall fn ags dv ip) with
        | ok target s1 o1 =>
          try simp only []
          have g1 := eres_len_ok (ihExpr en s out (Expr.FunctionCall fn ags dv ip)) h1
          cases h2 : getDotValHelper fuel en s1 o1 target r with
          | ok v t2 s2 o2 =>
            try simp only []
            have g2 := hres_len_ok (ihHelp en s1 o1 target r) h2
            (try simp only []); simp only [eresGE]; omega
          | err e2 t2 s2 o2 =>
            try simp only []
            have g2 := hres_len_err (ihHelp en s1 o1 target r) h2
            (try simp only []); simp only [eresGE]; omega
          | panicked m => simp [eresGE]
          | diverge => simp [eresGE]
        | err e1 s1 o1 =>
          try simp only []
          have g1 := eres_len_err (ihExpr en s out (Expr.FunctionCall fn ags dv ip)) h1
          (try simp only []); simp only [eresGE]; omega
        | panicked m => simp [eresGE]
        | diverge => simp [eresGE]
      case And al ar =>
        simp only [getDotVal]
        cases h1 : evalExpr fuel en s out (Expr.And al ar) with
        | ok target s1 o1 =>
          try simp only []
          have g1 := eres_len_ok (ihExpr en s out (Expr.And al ar)) h1
          cases h2 : getDotValHelper fuel en s1 o1 target r with
          | ok v t2 s2 o2 =>
            try simp only []
            have g2 := hres_len_ok (ihHelp en s1 o1 target r) h2
            (try simp only []); simp only [eresGE]; omega
          | err e2 t2 s2 o2 =>
            try simp only []
            have g2 := hres_len_err (ihHelp en s1 o1 target r) h2
            (try simp only []); simp only [eresGE]; omega
          | panicked m => simp [eresGE]
          | diverge => simp [eresGE]
        | err e1 s1 o1 =>
          try simp only []
          have g1 := eres_len_err (ihExpr en s out (Expr.And al ar)) h1
          (try simp only []); simp only [eresGE]; omega
        | panicked m => simp [eresGE]
        | diverge => simp [eresGE]
      case Or al ar =>
        simp only [getDotVal]
        cases h1 : evalExpr fuel en s out (Expr.Or al ar) with
        | ok target s1 o1 =>
          try simp only []
          have g1 := eres_len_ok (ihExpr en s out (Expr.Or al ar)) h1
          cases h2 : getDotValHelper fuel en s1 o1 target r with
          | ok v t2 s2 o2 =>
            try simp only []
            have g2 := hres_len_ok (ihHelp en s1 o1 target r) h2
            (try simp only []); simp only [eresGE]; omega
          | err e2 t2 s2 o2 =>
            try simp only []
            have g2 := hres_len_err (ihHelp en s1 o1 target r) h2
            (try simp only []); simp only [eresGE]; omega
          | panicked m => simp [eresGE]
          | diverge => simp [eresGE]
        | err e1 s1 o1 =>
          try simp only []
          have g1 := eres_len_err (ihExpr en s out (Expr.Or al ar)) h1
          (try simp only []); simp only [eresGE]; omega
        | panicked m => simp [eresGE]
        | diverge => simp [eresGE]
      case True ip =>
        simp only [getDotVal]
        cases h1 : evalExpr fuel en s out (Expr.True ip) with
        | ok target s1 o1 =>
          try simp only []
          have g1 := eres_len_ok (ihExpr en s out (Expr.True ip)) h1
          cases h2 : getDotValHelper fuel en s1 o1 target r with
          | ok v t2 s2 o2 =>
            try simp only []
            have g2 := hres_len_ok (ihHelp en s1 o1 target r) h2
            (try simp only []); simp only [eresGE]; omega
          | err e2 t2 s2 o2 =>
            try simp only []
            have g2 := hres_len_err (ihHelp en s1 o1 target r) h2
            (try simp only []); simp only [eresGE]; omega
          | panicked m => simp [eresGE]
          | diverge => simp [eresGE]
        | err e1 s1 o1 =>
          try simp only []
          have g1 := eres_len_err (ihExpr en s out (Expr.True ip)) h1
          (try simp only []); simp only [eresGE]; omega
        | panicked m => simp [eresGE]
        | diverge => simp [eresGE]
      case False ip =>
        simp only [getDotVal]
        cases h1 : evalExpr fuel en s out (Expr.False ip) with
        | ok target s1 o1 =>
          try simp only []
          have g1 := eres_len_ok (ihExpr en s out (Expr.False ip)) h1
          cases h2 : getDotValHelper fuel en s1 o1 target r with
          | ok v t2 s2 o2 =>
            try simp only []
            have g2 := hres_len_ok (ihHelp en s1 o1 target r) h2
            (try simp only []); simp only [eresGE]; omega
          | err e2 t2 s2 o2 =>
            try simp only []
            have g2 := hres_len_err (ihHelp en s1 o1 target r) h2
            (try simp only []); simp only [eresGE]; omega
          | panicked m => simp [eresGE]
          | diverge => simp [eresGE]
        | err e1 s1 o1 =>
          try simp only []
          have g1 := eres_len_err (ihExpr en s out (Expr.False ip)) h1
          (try simp only []); simp only [eresGE]; omega
        | panicked m => simp [eresGE]
        | diverge => simp [eresGE]
      case Unit ip =>
        simp only [getDotVal]
        cases h1 : evalExpr fuel en s out (Expr.Unit ip) with
        | ok target s1 o1 =>
          try simp only []
          have g1 := eres_len_ok (ihExpr en s out (Expr.Unit ip)) h1
          cases h2 : getDotValHelper fuel en s1 o1 target r with
          | ok v t2 s2 o2 =>
            try simp only []
            have g2 := hres_len_ok (ihHelp en s1 o1 target r) h2
            (try simp only []); simp only [eresGE]; omega
          | err e2 t2 s2 o2 =>
            try simp only []
            have g2 := hres_len_err (ihHelp en s1 o1 target r) h2
            (try simp only []); simp only [eresGE]; omega
          | panicked m => simp [eresGE]
          | diverge => simp [eresGE]
        | err e1 s1 o1 =>
          try simp only []
          have g1 := eres_len_err (ihExpr en s out (Expr.Unit ip)) h1
          (try simp only []); simp only [eresGE]; omega
        | panicked m => simp [eresGE]
        | diverge => simp [eresGE]
    · -- evalIndexValue
      intro en s out e
      simp only [evalIndexValue]
      cases h1 : evalExpr fuel en s out e with
      | ok v s1 o1 =>
        try simp only []
        have g1 := eres_len_ok (ihExpr en s out e) h1
        split <;> (try simp only []) <;> simp only [eresGE] <;> omega
      | err e1 s1 o1 =>
        try simp only []
        have g1 := eres_len_err (ihExpr en s out e) h1
        (try simp only []); simp only [eresGE]; omega
      | panicked m => simp [eresGE]
      | diverge => simp [eresGE]
    · -- evalIndexExpr
      intro en s out l e p
      simp only [evalIndexExpr]
      cases h1 : evalIndexValue fuel en s out e with
      | ok idx s1 o1 =>
        try simp only []
        have g1 := eres_len_ok (ihIdxV en s out e) h1
        split
        · -- Variable base
          split
          · (try simp only []); simp only [eresGE]; omega
          · rename_i hne srcIdx vt v heq
            cases h2 : getIndexedValue en v idx e.position p with
            | ok q => obtain ⟨val, st⟩ := q; (try simp only []); simp only [eresGE]; omega
            | error e2 => (try simp only []); simp only [eresGE]; omega
        · -- expression base
          rename_i expr hne
          cases h2 : evalExpr fuel en s1 o1 l with
          | ok v s2 o2 =>
            try simp only []
            have g2 := eres_len_ok (ihExpr en s1 o1 l) h2
            cases h3 : getIndexedValue en v idx e.position p with
            | ok q => obtain ⟨val, st⟩ := q; (try simp only []); simp only [eresGE]; omega
            | error e3 => (try simp only []); simp only [eresGE]; omega
          | err e2 s2 o2 =>
            try simp only []
            have g2 := eres_len_err (ihExpr en s1 o1 l) h2
            (try simp only []); simp only [eresGE]; omega
          | panicked m => simp [eresGE]
          | diverge => simp [eresGE]
      | err e1 s1 o1 =>
        try simp only []
        have g1 := eres_len_err (ihIdxV en s out e) h1
        (try simp only []); simp only [eresGE]; omega
      | panicked m => simp [eresGE]
      | diverge => simp [eresGE]
    · -- setDotValHelper
      intro en s out this rhs nv vp
      cases rhs
      case Property id pos =>
        simp only [setDotValHelper]
        cases h2 : callFnRaw fuel en out ("set$" ++ id) [this, nv] none pos <;> simp [hresGE]
      case Index lhs idxExpr idxPos =>
        cases lhs
        case Property id pos =>
          simp only [setDotValHelper]
          cases h2 : callFnRaw fuel en out ("get$" ++ id) [this] none pos with
          | ok v args2 o2 =>
            try simp only []
            cases h3 : evalIndexValue fuel en s o2 idxExpr with
            | ok idx s1 o3 =>
              try simp only []
              have g3 := eres_len_ok (ihIdxV en s o2 idxExpr) h3
              cases h4 : updateIndexedValue v (intToUsize idx) nv vp with
              | ok v2 =>
                try simp only []
                cases h5 : callFnRaw fuel en o3 ("set$" ++ id) [args2.headD this, v2] none pos <;>
                  (try simp only []) <;> simp only [hresGE] <;> first | trivial | omega
              | err e4 => (try simp only []); simp only [hresGE]; omega
              | panicked m => simp [hresGE]
            | err e3 s1 o3 =>
              try simp only []
              have g3 := eres_len_err (ihIdxV en s o2 idxExpr) h3
              (try simp only []); simp only [hresGE]; omega
            | panicked m => simp [hresGE]
            | diverge => simp [hresGE]
          | err e2 o2 => simp [hresGE]
          | panicked m => simp [hresGE]
          | diverge => simp [hresGE]
        all_goals simp [setDotValHelper, hresGE]
      case Dot lhs rhs2 dpos =>
        cases lhs
        case Property id pos =>
          simp only [setDotValHelper]
          cases h2 : callFnRaw fuel en out ("get$" ++ id) [this] none pos with
          | ok v args2 o2 =>
            try simp only []
            cases h3 : setDotValHelper fuel en s o2 v rhs2 nv vp with
            | ok r v2 s1 o3 =>
              try simp only []
              have g3 := hres_len_ok (ihSetH en s o2 v rhs2 nv vp) h3
              cases h5 : callFnRaw fuel en o3 ("set$" ++ id) [args2.headD this, v2] none pos <;>
                (try simp only []) <;> simp only [hresGE] <;> first | trivial | omega
            | err e3 v2 s1 o3 =>
              try simp only []
              have g3 := hres_len_err (ihSetH en s o2 v rhs2 nv vp) h3
              (try simp only []); simp only [hresGE]; omega
            | panicked m => simp [hresGE]
            | diverge => simp [hresGE]
          | err e2 o2 => simp [hresGE]
          | panicked m => simp [hresGE]
          | diverge => simp [hresGE]
        case Index idxLhs2 idxExpr2 idxPos2 =>
          cases idxLhs2
          case Property id pos =>
            simp only [setDotValHelper]
            cases h2 : callFnRaw fuel en out ("get$" ++ id) [this] none pos with
            | ok v args2 o2 =>
              try simp only []
              cases h3 : evalIndexValue fuel en s o2 idxExpr2 with
              | ok idx s1 o3 =>
                try simp only []
                have g3 := eres_len_ok (ihIdxV en s o2 idxExpr2) h3
                cases h4 : getIndexedValue en v idx idxExpr2.position idxPos2 with
                | ok q =>
                  try simp only []
                  obtain ⟨target, st⟩ := q
                  try simp only []
                  cases h5 : setDotValHelper fuel en s1 o3 target rhs2 nv vp with
                  | ok r target2 s2 o4 =>
                    try simp only []
                    have g5 := hres_len_ok (ihSetH en s1 o3 target rhs2 nv vp) h5
                    cases h6 : updateIndexedValue v (intToUsize idx) target2 vp with
                    | ok v2 =>
                      try simp only []
                      cases h7 : callFnRaw fuel en o4 ("set$" ++ id) [args2.headD this, v2] none pos <;>
                        (try simp only []) <;> simp only [hresGE] <;> first | trivial | omega
                    | err e6 => (try simp only []); simp only [hresGE]; omega
                    | panicked m => simp [hresGE]
                  | err e5 target2 s2 o4 =>
                    try simp only []
                    have g5 := hres_len_err (ihSetH en s1 o3 target rhs2 nv vp) h5
                    (try simp only []); simp only [hresGE]; omega
                  | panicked m => simp [hresGE]
                  | diverge => simp [hresGE]
                | error e4 => (try simp only []); simp only [hresGE]; omega
              | err e3 s1 o3 =>
                try simp only []
                have g3 := eres_len_err (ihIdxV en s o2 idxExpr2) h3
                (try simp only []); simp only [hresGE]; omega
              | panicked m => simp [hresGE]
              | diverge => simp [hresGE]
            | err e2 o2 => simp [hresGE]
            | panicked m => simp [hresGE]
            | diverge => simp [hresGE]
          all_goals simp [setDotValHelper, hresGE]
        all_goals simp [setDotValHelper, hresGE]
      all_goals simp [setDotValHelper, hresGE]
    · -- setDotVal
      intro en s out l r nv vp op
      cases l
      case Variable id pos =>
        simp only [setDotVal]
        cases h0 : Scope.get s id with
        | none => simp [eresGE]
        | some p =>
          try simp only []
          obtain ⟨srcIdx, vt, target⟩ := p
          try simp only []
          cases vt with
          | Constant => simp [eresGE]
          | Normal =>
            cases h1 : setDotValHelper fuel en s out target r nv vp with
            | ok v t1 s1 o1 =>
              try simp only []
              have g1 := hres_len_ok (ihSetH en s out target r nv vp) h1
              (try simp only []); simp only [eresGE, scope_setVal_length]; omega
            | err e1 t1 s1 o1 =>
              try simp only []
              have g1 := hres_len_err (ihSetH en s out target r nv vp) h1
              (try simp only []); simp only [eresGE, scope_setVal_length]; omega
            | panicked m => simp [eresGE]
            | diverge => simp [eresGE]
      case Index idxLhs idxExpr idxPos =>
        simp only [setDotVal]
        cases h1 : evalIndexExpr fuel en s out idxLhs idxExpr idxPos with
        | ok info s1 o1 =>
          try simp only []
          obtain ⟨srcType, src, idx, target⟩ := info
          try simp only []
          have g1 := eres_len_ok (ihIdxE en s out idxLhs idxExpr idxPos) h1
          cases h2 : setDotValHelper fuel en s1 o1 target r nv vp with
          | ok v t2 s2 o2 =>
            try simp only []
            have g2 := hres_len_ok (ihSetH en s1 o1 target r nv vp) h2
            split
            · (try simp only []); simp only [eresGE]; omega
            · rename_i id2 srcIdx2
              cases h3 : updateIndexedVarInScope srcType s2 id2 srcIdx2 idx t2 vp with
              | ok p =>
                try simp only []
                obtain ⟨d3, s3⟩ := p
                try simp only []
                have g3 := updateIVS_ok_length h3
                (try simp only []); simp only [eresGE]; omega
              | err e3 => (try simp only []); simp only [eresGE]; omega
              | panicked m => simp [eresGE]
            · (try simp only []); simp only [eresGE]; omega
          | err e2 t2 s2 o2 =>
            try simp only []
            have g2 := hres_len_err (ihSetH en s1 o1 target r nv vp) h2
            split
            · (try simp only []); simp only [eresGE]; omega
            · rename_i id2 srcIdx2
              cases h3 : updateIndexedVarInScope srcType s2 id2 srcIdx2 idx t2 vp with
              | ok p =>
                try simp only []
                obtain ⟨d3, s3⟩ := p
                try simp only []
                have g3 := updateIVS_ok_length h3
                (try simp only []); simp only [eresGE]; omega
              | err e3 => (try simp only []); simp only [eresGE]; omega
              | panicked m => simp [eresGE]
            · (try simp only []); simp only [eresGE]; omega
          | panicked m => simp [eresGE]
          | diverge => simp [eresGE]
        | err e1 s1 o1 =>
          try simp only []
          have g1 := eres_len_err (ihIdxE en s out idxLhs idxExpr idxPos) h1
          (try simp only []); simp only [eresGE]; omega
        | panicked m => simp [eresGE]
        | diverge => simp [eresGE]
      all_goals simp [setDotVal, eresGE]
    · -- evalExpr
      intro en s out e
      cases e
      case Variable id pos =>
        simp only [evalExpr]
        split <;> simp [eresGE]
      case Index lhs idxExpr idxPos =>
        simp only [evalExpr]
        cases h1 : evalIndexExpr fuel en s out lhs idxExpr idxPos with
        | ok info s1 o1 =>
          try simp only []
          obtain ⟨st1, src1, i1, v1⟩ := info
          try simp only []
          have g1 := eres_len_ok (ihIdxE en s out lhs idxExpr idxPos) h1
          (try simp only []); simp only [eresGE]; omega
        | err e1 s1 o1 =>
          try simp only []
          have g1 := eres_len_err (ihIdxE en s out lhs idxExpr idxPos) h1
          (try simp only []); simp only [eresGE]; omega
        | panicked m => simp [eresGE]
        | diverge => simp [eresGE]
      case Stmt stmt spos =>
        simp only [evalExpr]
        exact ihStmt en s out stmt
      case Assignment alhs ar ap =>
        cases alhs
        case Variable name pos =>
          simp only [evalExpr]
          cases h1 : evalExpr fuel en s out ar with
          | ok rhsVal s1 o1 =>
            try simp only []
            have g1 := eres_len_ok (ihExpr en s out ar) h1
            split <;> (try simp only []) <;> simp only [eresGE, scope_setVal_length] <;> omega
          | err e1 s1 o1 =>
            try simp only []
            have g1 := eres_len_err (ihExpr en s out ar) h1
            (try simp only []); simp only [eresGE]; omega
          | panicked m => simp [eresGE]
          | diverge => simp [eresGE]
        case Index idxLhs idxExpr idxPos =>
          simp only [evalExpr]
          cases h1 : evalExpr fuel en s out ar with
          | ok rhsVal s1 o1 =>
            try simp only []
            have g1 := eres_len_ok (ihExpr en s out ar) h1
            cases h2 : evalIndexExpr fuel en s1 o1 idxLhs idxExpr idxPos with
            | ok info s2 o2 =>
              try simp only []
              obtain ⟨srcType, src, idx, tv⟩ := info
              try simp only []
              have g2 := eres_len_ok (ihIdxE en s1 o1 idxLhs idxExpr idxPos) h2
              split
              · (try simp only []); simp only [eresGE]; omega
              · rename_i id2 srcIdx2
                cases h3 : updateIndexedVarInScope srcType s2 id2 srcIdx2 idx rhsVal ar.position with
                | ok p =>
                  try simp only []
                  obtain ⟨d3, s3⟩ := p
                  try simp only []
                  have g3 := updateIVS_ok_length h3
                  (try simp only []); simp only [eresGE]; omega
                | err e3 => (try simp only []); simp only [eresGE]; omega
                | panicked m => simp [eresGE]
              · (try simp only []); simp only [eresGE]; omega
            | err e2 s2 o2 =>
              try simp only []
              have g2 := eres_len_err (ihIdxE en s1 o1 idxLhs idxExpr idxPos) h2
              (try simp only []); simp only [eresGE]; omega
            | panicked m => simp [eresGE]
            | diverge => simp [eresGE]
          | err e1 s1 o1 =>
            try simp only []
            have g1 := eres_len_err (ihExpr en s out ar) h1
            (try simp only []); simp only [eresGE]; omega
          | panicked m => simp [eresGE]
          | diverge => simp [eresGE]
        case Dot dl dr dp =>
          simp only [evalExpr]
          cases h1 : evalExpr fuel en s out ar with
          | ok rhsVal s1 o1 =>
            try simp only []
            have g1 := eres_len_ok (ihExpr en s out ar) h1
            exact eresGE_mono g1 (ihSetD en s1 o1 dl dr rhsVal ar.position ap)
          | err e1 s1 o1 =>
            try simp only []
            have g1 := eres_len_err (ihExpr en s out ar) h1
            (try simp only []); simp only [eresGE]; omega
          | panicked m => simp [eresGE]
          | diverge => simp [eresGE]
        case IntegerConstant iv ip =>
          simp only [evalExpr]
          cases h1 : evalExpr fuel en s out ar with
          | ok rhsVal s1 o1 =>
            try simp only []
            have g1 := eres_len_ok (ihExpr en s out ar) h1
            split <;> (try simp only []) <;> simp only [eresGE] <;> omega
          | err e1 s1 o1 =>
            try simp only []
            have g1 := eres_len_err (ihExpr en s out ar) h1
            (try simp only []); simp only [eresGE]; omega
          | panicked m => simp [eresGE]
          | diverge => simp [eresGE]
        case StringConstant sv ip =>
          simp only [evalExpr]
          cases h1 : evalExpr fuel en s out ar with
          | ok rhsVal s1 o1 =>
            try simp only []
            have g1 := eres_len_ok (ihExpr en s out ar) h1
            split <;> (try simp only []) <;> simp only [eresGE] <;> omega
          | err e1 s1 o1 =>
            try simp only []
            have g1 := eres_len_err (ihExpr en s out ar) h1
            (try simp only []); simp only [eresGE]; omega
          | panicked m => simp [eresGE]
          | diverge => simp [eresGE]
        case CharConstant cv ip =>
          simp only [evalExpr]
          cases h1 : evalExpr fuel en s out ar with
          | ok rhsVal s1 o1 =>
            try simp only []
            have g1 := eres_len_ok (ihExpr en s out ar) h1
            split <;> (try simp only []) <;> simp only [eresGE] <;> omega
          | err e1 s1 o1 =>
            try simp only []
            have g1 := eres_len_err (ihExpr en s out ar) h1
            (try simp only []); simp only [eresGE]; omega
          | panicked m => simp [eresGE]
          | diverge => simp [eresGE]
        case Property pid ip =>
          simp only [evalExpr]
          cases h1 : evalExpr fuel en s out ar with
          | ok rhsVal s1 o1 =>
            try simp only []
            have g1 := eres_len_ok (ihExpr en s out ar) h1
            split <;> (try simp only []) <;> simp only [eresGE] <;> omega
          | err e1 s1 o1 =>
            try simp only []
            have g1 := eres_len_err (ihExpr en s out ar) h1
            (try simp only []); simp only [eresGE]; omega
          | panicked m => simp [eresGE]
          | diverge => simp [eresGE]
        case Stmt stm ip =>
          simp only [evalExpr]
          cases h1 : evalExpr fuel en s out ar with
          | ok rhsVal s1 o1 =>
            try simp only []
            have g1 := eres_len_ok (ihExpr en s out ar) h1
            split <;> (try simp only []) <;> simp only [eresGE] <;> omega
          | err e1 s1 o1 =>
            try simp only []
            have g1 := eres_len_err (ihExpr en s out ar) h1
            (try simp only []); simp only [eresGE]; omega
          | panicked m => simp [eresGE]
          | diverge => simp [eresGE]
        case Assignment q1 q2 q3 =>
          simp only [evalExpr]
          cases h1 : evalExpr fuel en s out ar with
          | ok rhsVal s1 o1 =>
            try simp only []
            have g1 := eres_len_ok (ihExpr en s out ar) h1
            split <;> (try simp only []) <;> simp only [eresGE] <;> omega
          | err e1 s1 o1 =>
            try simp only []
            have g1 := eres_len_err (ihExpr en s out ar) h1
            (try simp only []); simp only [eresGE]; omega
          | panicked m => simp [eresGE]
          | diverge => simp [eresGE]
        case Array its ip =>
          simp only [evalExpr]
          cases h1 : evalExpr fuel en s out ar with
          | ok rhsVal s1 o1 =>
            try simp only []
            have g1 := eres_len_ok (ihExpr en s out ar) h1
            split <;> (try simp only []) <;> simp only [eresGE] <;> omega
          | err e1 s1 o1 =>
            try simp only []
            have g1 := eres_len_err (ihExpr en s out ar) h1
            (try simp only []); simp only [eresGE]; omega
          | panicked m => simp [eresGE]
          | diverge => simp [eresGE]
        case FunctionCall fn ags dv ip =>
          simp only [evalExpr]
          cases h1 : evalExpr fuel en s out ar with
          | ok rhsVal s1 o1 =>
            try simp only []
            have g1 := eres_len_ok (ihExpr en s out ar) h1
            split <;> (try simp only []) <;> simp only [eresGE] <;> omega
          | err e1 s1 o1 =>
            try simp only []
            have g1 := eres_len_err (ihExpr en s out ar) h1
            (try simp only []); simp only [eresGE]; omega
          | panicked m => simp [eresGE]
          | diverge => simp [eresGE]
        case And q1 q2 =>
          simp only [evalExpr]
          cases h1 : evalExpr fuel en s out ar with
          | ok rhsVal s1 o1 =>
            try simp only []
            have g1 := eres_len_ok (ihExpr en s out ar) h1
            split <;> (try simp only []) <;> simp only [eresGE] <;> omega
          | err e1 s1 o1 =>
            try simp only []
            have g1 := eres_len_err (ihExpr en s out ar) h1
            (try simp only []); simp only [eresGE]; omega
          | panicked m => simp [eresGE]
          | diverge => simp [eresGE]
        case Or q1 q2 =>
          simp only [evalExpr]
          cases h1 : evalExpr fuel en s out ar with
          | ok rhsVal s1 o1 =>
            try simp only []
            have g1 := eres_len_ok (ihExpr en s out ar) h1
            split <;> (try simp only []) <;> simp only [eresGE] <;> omega
          | err e1 s1 o1 =>
            try simp only []
            have g1 := eres_len_err (ihExpr en s out ar) h1
            (try simp only []); simp only [eresGE]; omega
          | panicked m => simp [eresGE]
          | diverge => simp [eresGE]
        case True ip =>
          simp only [evalExpr]
          cases h1 : evalExpr fuel en s out ar with
          | ok rhsVal s1 o1 =>
            try simp only []
            have g1 := eres_len_ok (ihExpr en s out ar) h1
            split <;> (try simp only []) <;> simp only [eresGE] <;> omega
          | err e1 s1 o1 =>
            try simp only []
            have g1 := eres_len_err (ihExpr en s out ar) h1
            (try simp only []); simp only [eresGE]; omega
          | panicked m => simp [eresGE]
          | diverge => simp [eresGE]
        case False ip =>
          simp only [evalExpr]
          cases h1 : evalExpr fuel en s out ar with
          | ok rhsVal s1 o1 =>
            try simp only []
            have g1 := eres_len_ok (ihExpr en s out ar) h1
            split <;> (try simp only []) <;> simp only [eresGE] <;> omega
          | err e1 s1 o1 =>
            try simp only []
            have g1 := eres_len_err (ihExpr en s out ar) h1
            (try simp only []); simp only [eresGE]; omega
          | panicked m => simp [eresGE]
          | diverge => simp [eresGE]
        case Unit ip =>
          simp only [evalExpr]
          cases h1 : evalExpr fuel en s out ar with
          | ok rhsVal s1 o1 =>
            try simp only []
            have g1 := eres_len_ok (ihExpr en s out ar) h1
            split <;> (try simp only []) <;> simp only [eresGE] <;> omega
          | err e1 s1 o1 =>
            try simp only []
            have g1 := eres_len_err (ihExpr en s out ar) h1
            (try simp only []); simp only [eresGE]; omega
          | panicked m => simp [eresGE]
          | diverge => simp [eresGE]
      case Dot lhs rhs dpos =>
        simp only [evalExpr]
        exact ihGet en s out lhs rhs
      case Array items apos =>
        simp only [evalExpr]
        cases h1 : evalExprs fuel en s out items with
        | ok vals s1 o1 =>
          try simp only []
          have g1 := eres_len_ok (ihExprs en s out items) h1
          (try simp only []); simp only [eresGE]; omega
        | err e1 s1 o1 =>
          try simp only []
          have g1 := eres_len_err (ihExprs en s out items) h1
          (try simp only []); simp only [eresGE]; omega
        | panicked m => simp [eresGE]
        | diverge => simp [eresGE]
      case FunctionCall fnName argExprs defVal pos =>
        simp only [evalExpr]
        split
        · try simp only []
          split <;> simp [eresGE]
        · cases h1 : evalExprs fuel en s out argExprs with
          | ok vals s1 o1 =>
            try simp only []
            have g1 := eres_len_ok (ihExprs en s out argExprs) h1
            cases h2 : callFnRaw fuel en o1 fnName vals defVal pos <;>
              (try simp only []) <;> simp only [eresGE] <;> first | trivial | omega
          | err e1 s1 o1 =>
            try simp only []
            have g1 := eres_len_err (ihExprs en s out argExprs) h1
            (try simp only []); simp only [eresGE]; omega
          | panicked m => simp [eresGE]
          | diverge => simp [eresGE]
      case And lhs rhs =>
        simp only [evalExpr]
        cases h1 : evalExpr fuel en s out lhs with
        | ok v s1 o1 =>
          try simp only []
          have g1 := eres_len_ok (ihExpr en s out lhs) h1
          split
          · (try simp only []); simp only [eresGE]; omega
          · cases h2 : evalExpr fuel en s1 o1 rhs with
            | ok v2 s2 o2 =>
              try simp only []
              have g2 := eres_len_ok (ihExpr en s1 o1 rhs) h2
              split <;> (try simp only []) <;> simp only [eresGE] <;> omega
            | err e2 s2 o2 =>
              try simp only []
              have g2 := eres_len_err (ihExpr en s1 o1 rhs) h2
              (try simp only []); simp only [eresGE]; omega
            | panicked m => simp [eresGE]
            | diverge => simp [eresGE]
          · (try simp only []); simp only [eresGE]; omega
        | err e1 s1 o1 =>
          try simp only []
          have g1 := eres_len_err (ihExpr en s out lhs) h1
          (try simp only []); simp only [eresGE]; omega
        | panicked m => simp [eresGE]
        | diverge => simp [eresGE]
      case Or lhs rhs =>
        simp only [evalExpr]
        cases h1 : evalExpr fuel en s out lhs with
        | ok v s1 o1 =>
          try simp only []
          have g1 := eres_len_ok (ihExpr en s out lhs) h1
          split
          · (try simp only []); simp only [eresGE]; omega
          · cases h2 : evalExpr fuel en s1 o1 rhs with
            | ok v2 s2 o2 =>
              try simp only []
              have g2 := eres_len_ok (ihExpr en s1 o1 rhs) h2
              split <;> (try simp only []) <;> simp only [eresGE] <;> omega
            | err e2 s2 o2 =>
              try simp only []
              have g2 := eres_len_err (ihExpr en s1 o1 rhs) h2
              (try simp only []); simp only [eresGE]; omega
            | panicked m => simp [eresGE]
            | diverge => simp [eresGE]
          · (try simp only []); simp only [eresGE]; omega
        | err e1 s1 o1 =>
          try simp only []
          have g1 := eres_len_err (ihExpr en s out lhs) h1
          (try simp only []); simp only [eresGE]; omega
        | panicked m => simp [eresGE]
        | diverge => simp [eresGE]
      all_goals simp [evalExpr, eresGE]
    · -- evalExprs
      intro en s out es
      cases es with
      | nil => simp [evalExprs, eresGE]
      | cons e rest =>
        simp only [evalExprs]
        cases h1 : evalExpr fuel en s out e with
        | ok v s1 o1 =>
          try simp only []
          have g1 := eres_len_ok (ihExpr en s out e) h1
          cases h2 : evalExprs fuel en s1 o1 rest with
          | ok vs s2 o2 =>
            try simp only []
            have g2 := eres_len_ok (ihExprs en s1 o1 rest) h2
            (try simp only []); simp only [eresGE]; omega
          | err e2 s2 o2 =>
            try simp only []
            have g2 := eres_len_err (ihExprs en s1 o1 rest) h2
            (try simp only []); simp only [eresGE]; omega
          | panicked m => simp [eresGE]
          | diverge => simp [eresGE]
        | err e1 s1 o1 =>
          try simp only []
          have g1 := eres_len_err (ihExpr en s out e) h1
          (try simp only []); simp only [eresGE]; omega
        | panicked m => simp [eresGE]
        | diverge => simp [eresGE]
    · -- blockLoop
      intro en s out sts
      cases sts with
      | nil => simp [blockLoop, eresGE]
      | cons stmt rest =>
        simp only [blockLoop]
        cases h1 : evalStmt fuel en s out stmt with
        | ok v s1 o1 =>
          try simp only []
          have g1 := eres_len_ok (ihStmt en s out stmt) h1
          split
          · (try simp only []); simp only [eresGE]; omega
          · exact eresGE_mono g1 (ihBlock en s1 o1 rest)
        | err e1 s1 o1 =>
          try simp only []
          have g1 := eres_len_err (ihStmt en s out stmt) h1
          (try simp only []); simp only [eresGE]; omega
        | panicked m => simp [eresGE]
        | diverge => simp [eresGE]
    · -- forLoop
      intro en s out i b vs
      cases vs with
      | nil => simp [forLoop, eresGE]
      | cons a rest =>
        simp only [forLoop]
        cases h1 : evalStmt fuel en (Scope.setVal s i a) out b with
        | ok v s1 o1 =>
          try simp only []
          have g1 := eres_len_ok (ihStmt en (Scope.setVal s i a) out b) h1
          rw [scope_setVal_length] at g1
          exact eresGE_mono g1 (ihFor en s1 o1 i b rest)
        | err e1 s1 o1 =>
          try simp only []
          have g1 := eres_len_err (ihStmt en (Scope.setVal s i a) out b) h1
          rw [scope_setVal_length] at g1
          cases e1 <;> (try simp only []) <;> simp only [eresGE] <;> omega
        | panicked m => simp [eresGE]
        | diverge => simp [eresGE]
    · -- evalStmt
      intro en s out st
      cases st
      case Noop pos => simp [evalStmt, eresGE]
      case Expr e =>
        simp only [evalStmt]
        cases h1 : evalExpr fuel en s out e with
        | ok v s1 o1 =>
          try simp only []
          have g1 := eres_len_ok (ihExpr en s out e) h1
          split <;> (try simp only []) <;> simp only [eresGE] <;> omega
        | err e1 s1 o1 =>
          try simp only []
          have g1 := eres_len_err (ihExpr en s out e) h1
          (try simp only []); simp only [eresGE]; omega
        | panicked m => simp [eresGE]
        | diverge => simp [eresGE]
      case Block stmts bpos =>
        simp only [evalStmt]
        cases h1 : blockLoop fuel en s out stmts with
        | ok v s1 o1 =>
          try simp only []
          have g1 := eres_len_ok (ihBlock en s out stmts) h1
          (try simp only []); simp only [eresGE, scope_rewind_length]; omega
        | err e1 s1 o1 =>
          try simp only []
          have g1 := eres_len_err (ihBlock en s out stmts) h1
          (try simp only []); simp only [eresGE, scope_rewind_length]; omega
        | panicked m => simp [eresGE]
        | diverge => simp [eresGE]
      case IfElse guard ifBody elseBody =>
        simp only [evalStmt]
        cases h1 : evalExpr fuel en s out guard with
        | ok v s1 o1 =>
          try simp only []
          have g1 := eres_len_ok (ihExpr en s out guard) h1
          split
          · exact eresGE_mono g1 (ihStmt en s1 o1 ifBody)
          · split
            · rename_i eb
              exact eresGE_mono g1 (ihStmt en s1 o1 eb)
            · (try simp only []); simp only [eresGE]; omega
          · (try simp only []); simp only [eresGE]; omega
        | err e1 s1 o1 =>
          try simp only []
          have g1 := eres_len_err (ihExpr en s out guard) h1
          (try simp only []); simp only [eresGE]; omega
        | panicked m => simp [eresGE]
        | diverge => simp [eresGE]
      case While guard body =>
        simp only [evalStmt]
        cases h1 : evalExpr fuel en s out guard with
        | ok v s1 o1 =>
          try simp only []
          have g1 := eres_len_ok (ihExpr en s out guard) h1
          split
          · cases h2 : evalStmt fuel en s1 o1 body with
            | ok v2 s2 o2 =>
              try simp only []
              have g2 := eres_len_ok (ihStmt en s1 o1 body) h2
              exact eresGE_mono (by omega) (ihStmt en s2 o2 (.While guard body))
            | err e2 s2 o2 =>
              try simp only []
              have g2 := eres_len_err (ihStmt en s1 o1 body) h2
              cases e2 <;> (try simp only []) <;> simp only [eresGE] <;> omega
            | panicked m => simp [eresGE]
            | diverge => simp [eresGE]
          · (try simp only []); simp only [eresGE]; omega
          · (try simp only []); simp only [eresGE]; omega
        | err e1 s1 o1 =>
          try simp only []
          have g1 := eres_len_err (ihExpr en s out guard) h1
          (try simp only []); simp only [eresGE]; omega
        | panicked m => simp [eresGE]
        | diverge => simp [eresGE]
      case Loop body =>
        simp only [evalStmt]
        cases h1 : evalStmt fuel en s out body with
        | ok v s1 o1 =>
          try simp only []
          have g1 := eres_len_ok (ihStmt en s out body) h1
          exact eresGE_mono g1 (ihStmt en s1 o1 (.Loop body))
        | err e1 s1 o1 =>
          try simp only []
          have g1 := eres_len_err (ihStmt en s out body) h1
          cases e1 <;> (try simp only []) <;> simp only [eresGE] <;> omega
        | panicked m => simp [eresGE]
        | diverge => simp [eresGE]
      case For name e body =>
        simp only [evalStmt]
        cases h1 : evalExpr fuel en s out e with
        | ok arr s1 o1 =>
          try simp only []
          have g1 := eres_len_ok (ihExpr en s out e) h1
          split
          · rename_i iterFn hIter
            cases h2 : forLoop fuel en (Scope.push s1 ⟨name, .Normal, .vUnit⟩) o1
                ((Scope.push s1 ⟨name, .Normal, .vUnit⟩).length - 1) body (iterFn arr) with
            | ok v2 s2 o2 =>
              try simp only []
              have g2 := eres_len_ok (ihFor en (Scope.push s1 ⟨name, .Normal, .vUnit⟩) o1
                ((Scope.push s1 ⟨name, .Normal, .vUnit⟩).length - 1) body (iterFn arr)) h2
              rw [scope_push_length] at g2
              (try simp only []); simp only [eresGE, scope_pop_length]; omega
            | err e2 s2 o2 =>
              try simp only []
              have g2 := eres_len_err (ihFor en (Scope.push s1 ⟨name, .Normal, .vUnit⟩) o1
                ((Scope.push s1 ⟨name, .Normal, .vUnit⟩).length - 1) body (iterFn arr)) h2
              rw [scope_push_length] at g2
              (try simp only []); simp only [eresGE]; omega
            | panicked m => simp [eresGE]
            | diverge => simp [eresGE]
          · (try simp only []); simp only [eresGE]; omega
        | err e1 s1 o1 =>
          try simp only []
          have g1 := eres_len_err (ihExpr en s out e) h1
          (try simp only []); simp only [eresGE]; omega
        | panicked m => simp [eresGE]
        | diverge => simp [eresGE]
      case Break pos => simp [evalStmt, eresGE]
      case ReturnWithVal a rt pos =>
        cases a with
        | none => cases rt <;> simp [evalStmt, eresGE]
        | some ax =>
          try simp only []
          cases rt with
          | Return =>
            simp only [evalStmt]
            cases h1 : evalExpr fuel en s out ax with
            | ok v s1 o1 =>
              try simp only []
              have g1 := eres_len_ok (ihExpr en s out ax) h1
              (try simp only []); simp only [eresGE]; omega
            | err e1 s1 o1 =>
              try simp only []
              have g1 := eres_len_err (ihExpr en s out ax) h1
              (try simp only []); simp only [eresGE]; omega
            | panicked m => simp [eresGE]
            | diverge => simp [eresGE]
          | Exception =>
            simp only [evalStmt]
            cases h1 : evalExpr fuel en s out ax with
            | ok v s1 o1 =>
              try simp only []
              have g1 := eres_len_ok (ihExpr en s out ax) h1
              (try simp only []); simp only [eresGE]; omega
            | err e1 s1 o1 =>
              try simp only []
              have g1 := eres_len_err (ihExpr en s out ax) h1
              (try simp only []); simp only [eresGE]; omega
            | panicked m => simp [eresGE]
            | diverge => simp [eresGE]
      case Let name init lpos =>
        cases init with
        | none => simp only [evalStmt, eresGE, scope_push_length]; omega
        | some e =>
          try simp only []
          simp only [evalStmt]
          cases h1 : evalExpr fuel en s out e with
          | ok v s1 o1 =>
            try simp only []
            have g1 := eres_len_ok (ihExpr en s out e) h1
            (try simp only []); simp only [eresGE, scope_push_length]; omega
          | err e1 s1 o1 =>
            try simp only []
            have g1 := eres_len_err (ihExpr en s out e) h1
            (try simp only []); simp only [eresGE]; omega
          | panicked m => simp [eresGE]
          | diverge => simp [eresGE]
      case Const name e cpos =>
        simp only [evalStmt]
        split
        · cases h1 : evalExpr fuel en s out e with
          | ok v s1 o1 =>
            try simp only []
            have g1 := eres_len_ok (ihExpr en s out e) h1
            (try simp only []); simp only [eresGE, scope_push_length]; omega
          | err e1 s1 o1 =>
            try simp only []
            have g1 := eres_len_err (ihExpr en s out e) h1
            (try simp only []); simp only [eresGE]; omega
          | panicked m => simp [eresGE]
          | diverge => simp [eresGE]
        · simp [eresGE]

theorem scriptCallResult_ok_args {args : List Dynamic} {r : ERes Dynamic} {v : Dynamic}
    {args2 : List Dynamic} {o2 : Output} (h : scriptCallResult args r = .ok v args2 o2) :
    args2 = args := by
  unfold scriptCallResult at h
  split at h <;> simp_all

theorem callFnRaw_ok_args {en : Engine} (H : ArgPreserving en) :
    ∀ {fuel : Nat} {out : Output} {name : String} {args : List Dynamic}
      {dv : Option Dynamic} {pos : Pos} {v : Dynamic} {args2 : List Dynamic} {o2 : Output},
      callFnRaw fuel en out name args dv pos = .ok v args2 o2 → args2 = args := by
  intro fuel out name args dv pos v args2 o2 h
  cases fuel with
  | zero => simp [callFnRaw] at h
  | succ fuel =>
    cases dv with
    | some dvv =>
      rw [callFnRaw] at h
      split at h
      · split at h
        · simp at h
        · exact scriptCallResult_ok_args h
      · split at h
        · rename_i f hf
          split at h
          · simp at h
          · rename_i v1 args1 hfr
            have hargs1 : args1 = args := H _ _ _ _ _ _ _ hf hfr
            subst hargs1
            split at h
            · simp only [FnRes.ok.injEq] at h
              exact h.2.1.symm
            · split at h
              · simp only [FnRes.ok.injEq] at h
                exact h.2.1.symm
              · simp only [FnRes.ok.injEq] at h
                exact h.2.1.symm
        · split at h
          · simp only [FnRes.ok.injEq] at h
            exact h.2.1.symm
          · split at h
            · simp at h
            · split at h
              · simp at h
              · simp only [FnRes.ok.injEq] at h
                exact h.2.1.symm
    | none =>
      rw [callFnRaw] at h
      split at h
      · split at h
        · simp at h
        · exact scriptCallResult_ok_args h
      · split at h
        · rename_i f hf
          split at h
          · simp at h
          · rename_i v1 args1 hfr
            have hargs1 : args1 = args := H _ _ _ _ _ _ _ hf hfr
            subst hargs1
            split at h
            · simp only [FnRes.ok.injEq] at h
              exact h.2.1.symm
            · split at h
              · simp only [FnRes.ok.injEq] at h
                exact h.2.1.symm
              · simp only [FnRes.ok.injEq] at h
                exact h.2.1.symm
        · split at h
          · simp only [FnRes.ok.injEq] at h
            exact h.2.1.symm
          · split at h
            · simp at h
            · split at h
              · simp at h
              · simp at h

theorem hres_this_ok {t : Dynamic} {r : HRes} (h : hresThis t r) {v t1 : Dynamic}
    {s1 : Scope} {o1 : Output} (he : r = .ok v t1 s1 o1) : t1 = t := by
  subst he; exact h

theorem hres_this_err {t : Dynamic} {r : HRes} (h : hresThis t r) {e : EvalAlt} {t1 : Dynamic}
    {s1 : Scope} {o1 : Output} (he : r = .err e t1 s1 o1) : t1 = t := by
  subst he; exact h

/-- When no host function mutates its arguments, the dot-chain helpers return
the `this` payload exactly as given (on the ok and the err path alike). -/
theorem thisPreserved {en : Engine} (H : ArgPreserving en) : ∀ fuel : Nat,
    (∀ s out this rhs, hresThis this (getDotValHelper fuel en s out this rhs)) ∧
    (∀ s out this rhs nv vp, hresThis this (setDotValHelper fuel en s out this rhs nv vp)) := by
  intro fuel
  induction fuel with
  | zero =>
    refine ⟨?_, ?_⟩ <;> intros <;> simp [getDotValHelper, setDotValHelper, hresThis]
  | succ fuel ih =>
    obtain ⟨ihG, ihS⟩ := ih
    refine ⟨?_, ?_⟩
    · -- getDotValHelper
      intro s out this rhs
      cases rhs
      case FunctionCall fnName argExprs defVal pos =>
        simp only [getDotValHelper]
        cases h1 : evalExprs fuel en s out argExprs with
        | ok vals s1 o1 =>
          try simp only []
          cases h2 : callFnRaw fuel en o1 fnName (this :: vals) defVal pos with
          | ok v args2 o2 =>
            have ha := callFnRaw_ok_args H h2
            subst ha
            simp [hresThis]
          | err e o2 => simp [hresThis]
          | panicked m => simp [hresThis]
          | diverge => simp [hresThis]
        | err e2 s1 o1 => simp [hresThis]
        | panicked m => simp [hresThis]
        | diverge => simp [hresThis]
      case Property id pos =>
        simp only [getDotValHelper]
        cases h2 : callFnRaw fuel en out ("get$" ++ id) [this] none pos with
        | ok v args2 o2 =>
          have ha := callFnRaw_ok_args H h2
          subst ha
          simp [hresThis]
        | err e o2 => simp [hresThis]
        | panicked m => simp [hresThis]
        | diverge => simp [hresThis]
      case Index idxLhs idxExpr idxPos =>
        cases idxLhs
        case Property id pos =>
          simp only [getDotValHelper]
          cases h2 : callFnRaw fuel en out ("get$" ++ id) [this] none pos with
          | ok val args2 o2 =>
            have ha := callFnRaw_ok_args H h2
            subst ha
            try simp only []
            cases h3 : evalIndexValue fuel en s o2 idxExpr with
            | ok idx s1 o3 =>
              try simp only []
              cases h4 : getIndexedValue en val idx idxExpr.position idxPos with
              | ok p => obtain ⟨v4, st4⟩ := p; simp [hresThis]
              | error e4 => simp [hresThis]
            | err e3 s1 o3 => simp [hresThis]
            | panicked m => simp [hresThis]
            | diverge => simp [hresThis]
          | err e2 o2 => simp [hresThis]
          | panicked m => simp [hresThis]
          | diverge => simp [hresThis]
        case Index ia ib ic =>
          simp only [getDotValHelper]
          cases h2 : getDotValHelper fuel en s out this (.Index ia ib ic) with
          | ok val t1 s1 o1 =>
            have ht := hres_this_ok (ihG s out this (.Index ia ib ic)) h2
            subst ht
            try simp only []
            cases h3 : evalIndexValue fuel en s1 o1 idxExpr with
            | ok idx s2 o2 =>
              try simp only []
              cases h4 : getIndexedValue en val idx idxExpr.position idxPos with
              | ok p => obtain ⟨v4, st4⟩ := p; simp [hresThis]
              | error e4 => simp [hresThis]
            | err e3 s2 o2 => simp [hresThis]
            | panicked m => simp [hresThis]
            | diverge => simp [hresThis]
          | err e2 t1 s1 o1 =>
            have ht := hres_this_err (ihG s out this (.Index ia ib ic)) h2
            subst ht
            simp [hresThis]
          | panicked m => simp [hresThis]
          | diverge => simp [hresThis]
        all_goals simp [getDotValHelper, hresThis]
      case Dot dotLhs2 rhs2 dpos =>
        cases dotLhs2
        case Property id pos =>
          simp only [getDotValHelper]
          cases h2 : callFnRaw fuel en out ("get$" ++ id) [this] none pos with
          | ok v args2 o2 =>
            have ha := callFnRaw_ok_args H h2
            subst ha
            try simp only []
            cases h3 : getDotValHelper fuel en s o2 v rhs2 with
            | ok r t s2 o3 => simp [hresThis]
            | err e3 t s2 o3 => simp [hresThis]
            | panicked m => simp [hresThis]
            | diverge => simp [hresThis]
          | err e2 o2 => simp [hresThis]
          | panicked m => simp [hresThis]
          | diverge => simp [hresThis]
        case Index idxLhs2 idxExpr2 idxPos2 =>
          cases idxLhs2
          case Property id pos =>
            simp only [getDotValHelper]
            cases h2 : callFnRaw fuel en out ("get$" ++ id) [this] none pos with
            | ok val args2 o2 =>
              have ha := callFnRaw_ok_args H h2
              subst ha
              try simp only []
              cases h3 : evalIndexValue fuel en s o2 idxExpr2 with
              | ok idx s1 o3 =>
                try simp only []
                cases h4 : getIndexedValue en val idx idxExpr2.position idxPos2 with
                | ok p =>
                  obtain ⟨v4, st4⟩ := p
                  try simp only []
                  cases h5 : getDotValHelper fuel en s1 o3 v4 rhs2 with
                  | ok r t s2 o4 => simp [hresThis]
                  | err e5 t s2 o4 => simp [hresThis]
                  | panicked m => simp [hresThis]
                  | diverge => simp [hresThis]
                | error e4 => simp [hresThis]
              | err e3 s1 o3 => simp [hresThis]
              | panicked m => simp [hresThis]
              | diverge => simp [hresThis]
            | err e2 o2 => simp [hresThis]
            | panicked m => simp [hresThis]
            | diverge => simp [hresThis]
          case Index ia ib ic =>
            simp only [getDotValHelper]
            cases h2 : getDotValHelper fuel en s out this (.Index ia ib ic) with
            | ok val t1 s1 o1 =>
              have ht := hres_this_ok (ihG s out this (.Index ia ib ic)) h2
              subst ht
              try simp only []
              cases h3 : evalIndexValue fuel en s1 o1 idxExpr2 with
              | ok idx s2 o2 =>
                try simp only []
                cases h4 : getIndexedValue en val idx idxExpr2.position idxPos2 with
                | ok p =>
                  obtain ⟨v4, st4⟩ := p
                  try simp only []
                  cases h5 : getDotValHelper fuel en s2 o2 v4 rhs2 with
                  | ok r t s3 o3 => simp [hresThis]
                  | err e5 t s3 o3 => simp [hresThis]
                  | panicked m => simp [hresThis]
                  | diverge => simp [hresThis]
                | error e4 => simp [hresThis]
              | err e3 s2 o2 => simp [hresThis]
              | panicked m => simp [hresThis]
              | diverge => simp [hresThis]
            | err e2 t1 s1 o1 =>
              have ht := hres_this_err (ihG s out this (.Index ia ib ic)) h2
              subst ht
              simp [hresThis]
            | panicked m => simp [hresThis]
            | diverge => simp [hresThis]
          all_goals simp [getDotValHelper, hresThis]
        all_goals simp [getDotValHelper, hresThis]
      all_goals simp [getDotValHelper, hresThis]
    · -- setDotValHelper
      intro s out this rhs nv vp
      cases rhs
      case Property id pos =>
        simp only [setDotValHelper]
        cases h2 : callFnRaw fuel en out ("set$" ++ id) [this, nv] none pos with
        | ok v args2 o2 =>
          have ha := callFnRaw_ok_args H h2
          subst ha
          simp [hresThis]
        | err e o2 => simp [hresThis]
        | panicked m => simp [hresThis]
        | diverge => simp [hresThis]
      case Index lhs idxExpr idxPos =>
        cases lhs
        case Property id pos =>
          simp only [setDotValHelper]
          cases h2 : callFnRaw fuel en out ("get$" ++ id) [this] none pos with
          | ok v args2 o2 =>
            have ha := callFnRaw_ok_args H h2
            subst ha
            try simp only []
            cases h3 : evalIndexValue fuel en s o2 idxExpr with
            | ok idx s1 o3 =>
              try simp only []
              cases h4 : updateIndexedValue v (intToUsize idx) nv vp with
              | ok v2 =>
                try simp only []
                cases h5 : callFnRaw fuel en o3 ("set$" ++ id) [List.headD [this] this, v2] none pos with
                | ok r args3 o4 =>
                  have ha3 := callFnRaw_ok_args H h5
                  subst ha3
                  simp [hresThis]
                | err e5 o4 => simp [hresThis]
                | panicked m => simp [hresThis]
                | diverge => simp [hresThis]
              | err e4 => simp [hresThis]
              | panicked m => simp [hresThis]
            | err e3 s1 o3 => simp [hresThis]
            | panicked m => simp [hresThis]
            | diverge => simp [hresThis]
          | err e2 o2 => simp [hresThis]
          | panicked m => simp [hresThis]
          | diverge => simp [hresThis]
        all_goals simp [setDotValHelper, hresThis]
      case Dot lhs rhs2 dpos =>
        cases lhs
        case Property id pos =>
          simp only [setDotValHelper]
          cases h2 : callFnRaw fuel en out ("get$" ++ id) [this] none pos with
          | ok v args2 o2 =>
            have ha := callFnRaw_ok_args H h2
            subst ha
            try simp only []
            cases h3 : setDotValHelper fuel en s o2 v rhs2 nv vp with
            | ok r v2 s1 o3 =>
              try simp only []
              cases h5 : callFnRaw fuel en o3 ("set$" ++ id) [List.headD [this] this, v2] none pos with
              | ok r2 args3 o4 =>
                have ha3 := callFnRaw_ok_args H h5
                subst ha3
                simp [hresThis]
              | err e5 o4 => simp [hresThis]
              | panicked m => simp [hresThis]
              | diverge => simp [hresThis]
            | err e3 v2 s1 o3 => simp [hresThis]
            | panicked m => simp [hresThis]
            | diverge => simp [hresThis]
          | err e2 o2 => simp [hresThis]
          | panicked m => simp [hresThis]
          | diverge => simp [hresThis]
        case Index idxLhs2 idxExpr2 idxPos2 =>
          cases idxLhs2
          case Property id pos =>
            simp only [setDotValHelper]
            cases h2 : callFnRaw fuel en out ("get$" ++ id) [this] none pos with
            | ok v args2 o2 =>
              have ha := callFnRaw_ok_args H h2
              subst ha
              try simp only []
              cases h3 : evalIndexValue fuel en s o2 idxExpr2 with
              | ok idx s1 o3 =>
                try simp only []
                cases h4 : getIndexedValue en v idx idxExpr2.position idxPos2 with
                | ok q =>
                  obtain ⟨target, st⟩ := q
                  try simp only []
                  cases h5 : setDotValHelper fuel en s1 o3 target rhs2 nv vp with
                  | ok r target2 s2 o4 =>
                    try simp only []
                    cases h6 : updateIndexedValue v (intToUsize idx) target2 vp with
                    | ok v2 =>
                      try simp only []
                      cases h7 : callFnRaw fuel en o4 ("set$" ++ id) [List.headD [this] this, v2] none pos with
                      | ok r2 args3 o5 =>
                        have ha3 := callFnRaw_ok_args H h7
                        subst ha3
                        simp [hresThis]
                      | err e7 o5 => simp [hresThis]
                      | panicked m => simp [hresThis]
                      | diverge => simp [hresThis]
                    | err e6 => simp [hresThis]
                    | panicked m => simp [hresThis]
                  | err e5 target2 s2 o4 => simp [hresThis]
                  | panicked m => simp [hresThis]
                  | diverge => simp [hresThis]
                | error e4 => simp [hresThis]
              | err e3 s1 o3 => simp [hresThis]
              | panicked m => simp [hresThis]
              | diverge => simp [hresThis]
            | err e2 o2 => simp [hresThis]
            | panicked m => simp [hresThis]
            | diverge => simp [hresThis]
          all_goals simp [setDotValHelper, hresThis]
        all_goals simp [setDotValHelper, hresThis]
      all_goals simp [setDotValHelper, hresThis]

theorem blockLoop_last : ∀ (stmts : List Stmt) {fuel : Nat} {en : Engine} {s : Scope}
    {out : Output} {v : Dynamic} {s1 : Scope} {o1 : Output},
    blockLoop fuel en s out stmts = .ok v s1 o1 → stmts ≠ [] →
    ∃ (fuel2 : Nat) (s0 : Scope) (o0 : Output) (t : Stmt),
      stmts.getLast? = some t ∧ evalStmt fuel2 en s0 o0 t = .ok v s1 o1 := by
  intro stmts
  induction stmts with
  | nil => intro fuel en s out v s1 o1 h hne; exact absurd rfl hne
  | cons a rest ih =>
    intro fuel en s out v s1 o1 h hne
    cases fuel with
    | zero => simp [blockLoop] at h
    | succ fuel =>
      rw [blockLoop] at h
      cases h1 : evalStmt fuel en s out a with
      | ok v2 s2 o2 =>
        rw [h1] at h
        simp only [] at h
        cases rest with
        | nil =>
          simp only [ERes.ok.injEq] at h
          obtain ⟨hv, hs, ho⟩ := h
          subst hv
          subst hs
          subst ho
          exact ⟨fuel, s, out, a, rfl, h1⟩
        | cons b rest2 =>
          simp only [] at h
          obtain ⟨f2, s0, o0, t, hlast, hev⟩ := ih h (by simp)
          refine ⟨f2, s0, o0, t, ?_, hev⟩
          rw [List.getLast?_cons_cons]
          exact hlast
      | err e2 s2 o2 => rw [h1] at h; simp at h
      | panicked m => rw [h1] at h; simp at h
      | diverge => rw [h1] at h; simp at h

/-- **C3** (code_bug evidence): evaluating `for i in [1] { throw }` with the
usual array iterator registered fails with the runtime error, and the scope
after the failed evaluation still contains the loop binding `i` — the `For`
statement returns the body's error without popping the binding it pushed, so
the scope length grew from 0 to 1 across a failed evaluation. -/
theorem for_error_leaks_binding :
    evalStmt 9 enIter [] out0
        (.For "i" (.Array [.IntegerConstant 1 0] 0) (.ReturnWithVal none .Exception 7)) =
      .err (.ErrorRuntime [] 7) [⟨"i", .Normal, .vInt 1⟩] out0 ∧
    ([⟨"i", .Normal, .vInt 1⟩] : Scope).length = ([] : Scope).length + 1 := by
  exact ⟨rfl, rfl⟩

/-- **C4**: a block records the scope length at entry and always rewinds to it:
after evaluating `Stmt.Block`, the scope length equals the entry length on the
success path and on the error path alike; an empty block returns unit with the
scope untouched; and a successful nonempty block returns exactly the value its
last statement produced. -/
theorem block_scope_rewind (fuel : Nat) (en : Engine) (s : Scope) (out : Output)
    (stmts : List Stmt) (bpos : Pos) :
    (∀ v s1 o1, evalStmt (fuel + 1) en s out (.Block stmts bpos) = .ok v s1 o1 →
      s1.length = s.length) ∧
    (∀ e s1 o1, evalStmt (fuel + 1) en s out (.Block stmts bpos) = .err e s1 o1 →
      s1.length = s.length) ∧
    (evalStmt (fuel + 2) en s out (.Block ([] : List Stmt) bpos) = .ok .vUnit s out) ∧
    (∀ v s1 o1, evalStmt (fuel + 1) en s out (.Block stmts bpos) = .ok v s1 o1 → stmts ≠ [] →
      ∃ (fuel2 : Nat) (s0 : Scope) (o0 : Output) (t : Stmt) (s2 : Scope),
        stmts.getLast? = some t ∧ evalStmt fuel2 en s0 o0 t = .ok v s2 o1 ∧
        s1 = Scope.rewind s2 s.length) := by
  refine ⟨?_, ?_, ?_, ?_⟩
  · intro v s1 o1 h
    rw [evalStmt] at h
    cases h1 : blockLoop fuel en s out stmts with
    | ok v2 s2 o2 =>
      have g1 := eres_len_ok ((lenMono fuel).2.2.2.2.2.2.2.2.1 en s out stmts) h1
      rw [h1] at h
      simp only [ERes.ok.injEq] at h
      obtain ⟨-, hs, -⟩ := h
      subst hs
      rw [scope_rewind_length]
      omega
    | err e2 s2 o2 => rw [h1] at h; simp at h
    | panicked m => rw [h1] at h; simp at h
    | diverge => rw [h1] at h; simp at h
  · intro e s1 o1 h
    rw [evalStmt] at h
    cases h1 : blockLoop fuel en s out stmts with
    | ok v2 s2 o2 => rw [h1] at h; simp at h
    | err e2 s2 o2 =>
      have g1 := eres_len_err ((lenMono fuel).2.2.2.2.2.2.2.2.1 en s out stmts) h1
      rw [h1] at h
      simp only [ERes.err.injEq] at h
      obtain ⟨-, hs, -⟩ := h
      subst hs
      rw [scope_rewind_length]
      omega
    | panicked m => rw [h1] at h; simp at h
    | diverge => rw [h1] at h; simp at h
  · rw [evalStmt, blockLoop]
    simp [Scope.rewind]
  · intro v s1 o1 h hne
    rw [evalStmt] at h
    cases h1 : blockLoop fuel en s out stmts with
    | ok v2 s2 o2 =>
      rw [h1] at h
      simp only [ERes.ok.injEq] at h
      obtain ⟨hv, hs, ho⟩ := h
      subst hv
      subst hs
      subst ho
      obtain ⟨f2, s0, o0, t, hlast, hev⟩ := blockLoop_last stmts h1 hne
      exact ⟨f2, s0, o0, t, s2, hlast, hev, rfl⟩
    | err e2 s2 o2 => rw [h1] at h; simp at h
    | panicked m => rw [h1] at h; simp at h
    | diverge => rw [h1] at h; simp at h

/-- Witness for C4 at a concrete input: a block `{ let x = 1; x }` evaluated in
a one-binding scope succeeds and rewinds the scope to its entry length. -/
theorem block_scope_rewind_witness :
    ([⟨"g", .Normal, .vInt 5⟩] : Scope).length = ([⟨"g", .Normal, .vInt 5⟩] : Scope).length :=
  (block_scope_rewind 8 emptyEngine [⟨"g", .Normal, .vInt 5⟩] out0
    [.Let "x" (some (.IntegerConstant 1 0)) 0, .Expr (.Variable "x" 1)] 0).1
    (.vInt 1) [⟨"g", .Normal, .vInt 5⟩] out0 rfl

/-- **C5**: `get_indexed_value` returns a clone of element `i` of an array when
`0 ≤ i < length` and an `ErrorArrayBounds` carrying the array length and `i`
otherwise (negative indices included); on a string it returns the `i`-th
character counted in characters with `ErrorStringBounds` carrying the character
count otherwise; any other base value fails with `ErrorIndexingType` naming the
value's pretty type name. -/
theorem getIndexedValue_spec (en : Engine) (vp ip : Pos) :
    (∀ (a : List Dynamic) (i : Int) (v : Dynamic), 0 ≤ i → a[i.toNat]? = some v →
      getIndexedValue en (.vArr a) i vp ip = .ok (v, .Array)) ∧
    (∀ (a : List Dynamic) (i : Int), i < 0 ∨ (a.length : Int) ≤ i →
      getIndexedValue en (.vArr a) i vp ip = .error (.ErrorArrayBounds a.length i vp)) ∧
    (∀ (cs : List Char) (i : Int) (c : Char), 0 ≤ i → cs[i.toNat]? = some c →
      getIndexedValue en (.vStr cs) i vp ip = .ok (.vChar c, .String)) ∧
    (∀ (cs : List Char) (i : Int), i < 0 ∨ (cs.length : Int) ≤ i →
      getIndexedValue en (.vStr cs) i vp ip = .error (.ErrorStringBounds cs.length i vp)) ∧
    (∀ (v : Dynamic) (i : Int), (∀ a, v ≠ .vArr a) → (∀ cs, v ≠ .vStr cs) →
      getIndexedValue en v i vp ip = .error (.ErrorIndexingType (en.mapTypeName v.typeName) ip)) := by
  refine ⟨?_, ?_, ?_, ?_, ?_⟩
  · intro a i v hi hv
    rw [getIndexedValue, if_pos hi, hv]
  · intro a i hi
    rw [getIndexedValue]
    rcases hi with hi | hi
    · rw [if_neg (by omega)]
    · have hge : i.toNat ≥ a.length := by omega
      rw [if_pos (by omega), List.getElem?_eq_none hge]
  · intro cs i c hi hc
    rw [getIndexedValue, if_pos hi, hc]
  · intro cs i hi
    rw [getIndexedValue]
    rcases hi with hi | hi
    · rw [if_neg (by omega)]
    · have hge : i.toNat ≥ cs.length := by omega
      rw [if_pos (by omega), List.getElem?_eq_none hge]
  · intro v i hna hns
    cases v with
    | vArr a => exact absurd rfl (hna a)
    | vStr cs => exact absurd rfl (hns cs)
    | vInt x => rfl
    | vBool x => rfl
    | vChar x => rfl
    | vUnit => rfl

/-- Witness for C5 at concrete inputs: a valid array read, an out-of-bounds
array read, and an indexing-type error on an integer base. -/
theorem getIndexedValue_spec_witness :
    getIndexedValue emptyEngine (.vArr [.vInt 7, .vInt 8]) 1 3 4 = .ok (.vInt 8, .Array) ∧
    getIndexedValue emptyEngine (.vArr [.vInt 7, .vInt 8]) (-1) 3 4 =
      .error (.ErrorArrayBounds 2 (-1) 3) ∧
    getIndexedValue emptyEngine (.vInt 0) 1 3 4 = .error (.ErrorIndexingType "i64" 4) := by
  refine ⟨?_, ?_, ?_⟩
  · exact (getIndexedValue_spec emptyEngine 3 4).1 [.vInt 7, .vInt 8] 1 (.vInt 8)
      (by decide) rfl
  · exact (getIndexedValue_spec emptyEngine 3 4).2.1 [.vInt 7, .vInt 8] (-1)
      (Or.inl (by decide))
  · exact (getIndexedValue_spec emptyEngine 3 4).2.2.2.2 (.vInt 0) 1
      (fun a h => by cases h) (fun cs h => by cases h)

/-- **C7**: `And`/`Or` evaluate the left operand first and require it boolean
(failing with the AND/OR boolean-arg-mismatch at the left operand's position
otherwise); a false left operand of `And` (resp. a true one of `Or`) yields the
result without evaluating the right operand at all; with a true left `And`
operand (resp. false left `Or` operand) the right operand is evaluated and must
be boolean. -/
theorem and_or_short_circuit (fuel : Nat) (en : Engine) (s : Scope) (out : Output)
    (lhs rhs : Expr) :
    (∀ s1 o1, evalExpr fuel en s out lhs = .ok (.vBool false) s1 o1 →
      evalExpr (fuel + 1) en s out (.And lhs rhs) = .ok (.vBool false) s1 o1) ∧
    (∀ s1 o1, evalExpr fuel en s out lhs = .ok (.vBool true) s1 o1 →
      evalExpr (fuel + 1) en s out (.Or lhs rhs) = .ok (.vBool true) s1 o1) ∧
    (∀ v s1 o1, evalExpr fuel en s out lhs = .ok v s1 o1 → (∀ b, v ≠ .vBool b) →
      evalExpr (fuel + 1) en s out (.And lhs rhs) =
        .err (.ErrorBooleanArgMismatch "AND" lhs.position) s1 o1 ∧
      evalExpr (fuel + 1) en s out (.Or lhs rhs) =
        .err (.ErrorBooleanArgMismatch "OR" lhs.position) s1 o1) ∧
    (∀ s1 o1 b s2 o2, evalExpr fuel en s out lhs = .ok (.vBool true) s1 o1 →
      evalExpr fuel en s1 o1 rhs = .ok (.vBool b) s2 o2 →
      evalExpr (fuel + 1) en s out (.And lhs rhs) = .ok (.vBool b) s2 o2) ∧
    (∀ s1 o1 v2 s2 o2, evalExpr fuel en s out lhs = .ok (.vBool true) s1 o1 →
      evalExpr fuel en s1 o1 rhs = .ok v2 s2 o2 → (∀ b, v2 ≠ .vBool b) →
      evalExpr (fuel + 1) en s out (.And lhs rhs) =
        .err (.ErrorBooleanArgMismatch "AND" rhs.position) s2 o2) ∧
    (∀ s1 o1 e s2 o2, evalExpr fuel en s out lhs = .ok (.vBool true) s1 o1 →
      evalExpr fuel en s1 o1 rhs = .err e s2 o2 →
      evalExpr (fuel + 1) en s out (.And lhs rhs) = .err e s2 o2) ∧
    (∀ s1 o1 b s2 o2, evalExpr fuel en s out lhs = .ok (.vBool false) s1 o1 →
      evalExpr fuel en s1 o1 rhs = .ok (.vBool b) s2 o2 →
      evalExpr (fuel + 1) en s out (.Or lhs rhs) = .ok (.vBool b) s2 o2) ∧
    (∀ s1 o1 v2 s2 o2, evalExpr fuel en s out lhs = .ok (.vBool false) s1 o1 →
      evalExpr fuel en s1 o1 rhs = .ok v2 s2 o2 → (∀ b, v2 ≠ .vBool b) →
      evalExpr (fuel + 1) en s out (.Or lhs rhs) =
        .err (.ErrorBooleanArgMismatch "OR" rhs.position) s2 o2) ∧
    (∀ s1 o1 e s2 o2, evalExpr fuel en s out lhs = .ok (.vBool false) s1 o1 →
      evalExpr fuel en s1 o1 rhs = .err e s2 o2 →
      evalExpr (fuel + 1) en s out (.Or lhs rhs) = .err e s2 o2) := by
  refine ⟨?_, ?_, ?_, ?_, ?_, ?_, ?_, ?_, ?_⟩
  · intro s1 o1 h
    rw [evalExpr, h]
  · intro s1 o1 h
    rw [evalExpr, h]
  · intro v s1 o1 h hnb
    constructor
    · rw [evalExpr, h]
      cases v with
      | vBool b => exact absurd rfl (hnb b)
      | vInt x => rfl
      | vChar x => rfl
      | vStr x => rfl
      | vArr x => rfl
      | vUnit => rfl
    · rw [evalExpr, h]
      cases v with
      | vBool b => exact absurd rfl (hnb b)
      | vInt x => rfl
      | vChar x => rfl
      | vStr x => rfl
      | vArr x => rfl
      | vUnit => rfl
  · intro s1 o1 b s2 o2 h1 h2
    rw [evalExpr, h1]
    simp only []
    rw [h2]
  · intro s1 o1 v2 s2 o2 h1 h2 hnb
    rw [evalExpr, h1]
    simp only []
    rw [h2]
    cases v2 with
    | vBool b => exact absurd rfl (hnb b)
    | vInt x => rfl
    | vChar x => rfl
    | vStr x => rfl
    | vArr x => rfl
    | vUnit => rfl
  · intro s1 o1 e s2 o2 h1 h2
    rw [evalExpr, h1]
    simp only []
    rw [h2]
  · intro s1 o1 b s2 o2 h1 h2
    rw [evalExpr, h1]
    simp only []
    rw [h2]
  · intro s1 o1 v2 s2 o2 h1 h2 hnb
    rw [evalExpr, h1]
    simp only []
    rw [h2]
    cases v2 with
    | vBool b => exact absurd rfl (hnb b)
    | vInt x => rfl
    | vChar x => rfl
    | vStr x => rfl
    | vArr x => rfl
    | vUnit => rfl
  · intro s1 o1 e s2 o2 h1 h2
    rw [evalExpr, h1]
    simp only []
    rw [h2]

/-- Witness for C7 at a concrete input: `false && nope` succeeds with `false`
even though evaluating the right operand `nope` would fail with a
variable-not-found error. -/
theorem and_or_short_circuit_witness :
    evalExpr 9 emptyEngine [] out0 (.And (.False 0) (.Variable "nope" 1)) =
      .ok (.vBool false) [] out0 :=
  (and_or_short_circuit 8 emptyEngine [] out0 (.False 0) (.Variable "nope" 1)).1
    [] out0 rfl

/-- **C9**: `throw` with no value raises a Runtime error with the empty
message; `throw v` evaluates `v` and raises a Runtime error whose message is
the string payload when `v` is a string, and the empty message (not an error)
for any non-string value. -/
theorem throw_semantics (fuel : Nat) (en : Engine) (s : Scope) (out : Output) (pos : Pos) :
    (evalStmt (fuel + 1) en s out (.ReturnWithVal none .Exception pos) =
      .err (.ErrorRuntime [] pos) s out) ∧
    (∀ a msg s1 o1, evalExpr fuel en s out a = .ok (.vStr msg) s1 o1 →
      evalStmt (fuel + 1) en s out (.ReturnWithVal (some a) .Exception pos) =
        .err (.ErrorRuntime msg pos) s1 o1) ∧
    (∀ a v s1 o1, evalExpr fuel en s out a = .ok v s1 o1 → (∀ msg, v ≠ .vStr msg) →
      evalStmt (fuel + 1) en s out (.ReturnWithVal (some a) .Exception pos) =
        .err (.ErrorRuntime [] pos) s1 o1) := by
  refine ⟨?_, ?_, ?_⟩
  · rw [evalStmt]
  · intro a msg s1 o1 h
    rw [evalStmt, h]
    rfl
  · intro a v s1 o1 h hns
    rw [evalStmt, h]
    simp only []
    cases v with
    | vStr msg => exact absurd rfl (hns msg)
    | vInt x => rfl
    | vBool x => rfl
    | vChar x => rfl
    | vArr x => rfl
    | vUnit => rfl

/-- Witness for C9 at a concrete input: `throw 42` (a non-string payload)
raises a Runtime error with the empty message. -/
theorem throw_semantics_witness :
    evalStmt 9 emptyEngine [] out0 (.ReturnWithVal (some (.IntegerConstant 42 1)) .Exception 5) =
      .err (.ErrorRuntime [] 5) [] out0 :=
  (throw_semantics 8 emptyEngine [] out0 5).2.2 (.IntegerConstant 42 1) (.vInt 42) [] out0
    rfl (fun msg h => by cases h)

/-- **C10**: evaluating a bare `Property` expression node (a property name
outside any dot chain) panics with "unexpected property." instead of returning
a structured error; the evaluator is total on `Property` only through the
panic outcome. -/
theorem property_node_panics (fuel : Nat) (en : Engine) (s : Scope) (out : Output)
    (id : String) (pos : Pos) :
    evalExpr (fuel + 1) en s out (.Property id pos) = .panicked "unexpected property." := by
  rw [evalExpr]

/-- The fixture engine `enGetId` registers only an argument-preserving host
getter, so it satisfies `ArgPreserving`. -/
theorem enGetId_argPreserving : ArgPreserving enGetId := by
  intro name tids f args pos v args2 hf hr
  simp only [enGetId] at hf
  by_cases hc : name = "get$p" ∧ tids = [.tInt]
  · rw [if_pos hc] at hf
    simp only [Option.some.injEq] at hf
    subst hf
    simp only [getPId] at hr
    injection hr with h1 h2
    exact h2.symm
  · rw [if_neg hc] at hf
    simp at hf

/-- **C1**: when a script function with matching name and arity exists (and the
registry is sorted for the probe, as the parser maintains), `call_fn_raw`
resolves the call through the binary search to a script definition with that
name and arity — regardless of the default-value argument and of any host
registrations under the same name — and evaluates its body in the fresh scope
that binds the parameters to the argument values as Normal bindings, with a
`Return(v)` signal from the body converted to the successful result `v`.
Selection is deterministic: the chosen index is the value of a function of the
name and arity alone. -/
theorem script_function_dispatch (en : Engine) (fuel : Nat) (out : Output) (name : String)
    (args : List Dynamic) (dv : Option Dynamic) (pos : Pos)
    (hsort : SortedProbe (fun fd => fd.compare name args.length) en.script_functions)
    (hex : ∃ fd, fd ∈ en.script_functions ∧ fd.name = name ∧
      fd.params.length = args.length) :
    ∃ (n : Nat) (fd : FnDef),
      binarySearchBy (fun fd => fd.compare name args.length) en.script_functions = some n ∧
      en.script_functions[n]? = some fd ∧ fd.name = name ∧
      fd.params.length = args.length ∧
      callFnRaw (fuel + 1) en out name args dv pos =
        scriptCallResult args (evalStmt fuel en (bindArgs fd.params args) out fd.body) ∧
      (∀ v p s1 o1, evalStmt fuel en (bindArgs fd.params args) out fd.body =
          .err (.Return v p) s1 o1 →
        callFnRaw (fuel + 1) en out name args dv pos = .ok v args o1) := by
  obtain ⟨fd0, hmem, hn0, hp0⟩ := hex
  obtain ⟨w, hw⟩ := List.getElem?_of_mem hmem
  obtain ⟨n, fd, hbs, hget, heq⟩ := binarySearchBy_complete hsort
    ⟨w, fd0, hw, fnDef_compare_eq_iff.mpr ⟨hn0, hp0⟩⟩
  obtain ⟨hfn, hfp⟩ := fnDef_compare_eq_iff.mp heq
  have hmain : callFnRaw (fuel + 1) en out name args dv pos =
      scriptCallResult args (evalStmt fuel en (bindArgs fd.params args) out fd.body) := by
    cases dv with
    | none =>
      rw [callFnRaw, hbs]
      simp only []
      rw [hget]
    | some dvv =>
      rw [callFnRaw, hbs]
      simp only []
      rw [hget]
  refine ⟨n, fd, hbs, hget, hfn, hfp, hmain, ?_⟩
  intro v p s1 o1 hb
  rw [hmain, hb]
  rfl

/-- Witness for C1 at a concrete input: the one-script-function engine `enScr`
dispatches a call of `f` with one argument to the script definition. -/
theorem script_function_dispatch_witness :
    ∃ (n : Nat) (fd : FnDef),
      binarySearchBy (fun fd => fd.compare "f" [Dynamic.vInt 7].length)
        enScr.script_functions = some n ∧
      enScr.script_functions[n]? = some fd ∧ fd.name = "f" ∧
      fd.params.length = [Dynamic.vInt 7].length ∧
      callFnRaw (8 + 1) enScr out0 "f" [.vInt 7] none 0 =
        scriptCallResult [.vInt 7]
          (evalStmt 8 enScr (bindArgs fd.params [.vInt 7]) out0 fd.body) ∧
      (∀ v p s1 o1, evalStmt 8 enScr (bindArgs fd.params [.vInt 7]) out0 fd.body =
          .err (.Return v p) s1 o1 →
        callFnRaw (8 + 1) enScr out0 "f" [.vInt 7] none 0 = .ok v [.vInt 7] o1) :=
  script_function_dispatch enScr 8 out0 "f" [.vInt 7] none 0
    (by
      intro i j a b hij ha hb
      cases j with
      | zero => omega
      | succ k => simp [enScr] at hb)
    ⟨⟨"f", ["x"], .Expr (.Variable "x" 0)⟩, by simp [enScr], rfl, rfl⟩

/-- **C2** (amended): a failing dot chain rooted at a scope variable does write
the locally mutated root copy back into the root slot (the writeback happens on
the error path too); when every registered host function leaves its argument
payloads unchanged, that copy still equals the pre-call value, so the root slot
holds its pre-call value after any failed `get_dot_val` or `set_dot_val`. -/
theorem dot_chain_root_writeback {en : Engine} (H : ArgPreserving en)
    (fuel : Nat) (s : Scope) (out : Output) (id : String) (pos : Pos) (dotRhs : Expr)
    (idx : Nat) (vt : VariableType) (v0 : Dynamic)
    (hget : Scope.get s id = some (idx, vt, v0)) :
    (∀ e s1 o1, getDotVal (fuel + 1) en s out (.Variable id pos) dotRhs = .err e s1 o1 →
      (s1[idx]?).map Binding.value = some v0) ∧
    (∀ nv vp op e s1 o1,
      setDotVal (fuel + 1) en s out (.Variable id pos) dotRhs nv vp op = .err e s1 o1 →
      (s1[idx]?).map Binding.value = some v0) := by
  have hidx : idx < s.length := (scopeGet_some hget).1
  constructor
  · intro e s1 o1 h
    rw [getDotVal, hget] at h
    simp only [] at h
    cases h2 : getDotValHelper fuel en s out v0 dotRhs with
    | ok v2 t2 s2 o2 => rw [h2] at h; simp at h
    | err e2 t2 s2 o2 =>
      rw [h2] at h
      simp only [ERes.err.injEq] at h
      obtain ⟨-, hs, -⟩ := h
      have ht : t2 = v0 := hres_this_err ((thisPreserved H fuel).1 s out v0 dotRhs) h2
      have hlen : s.length ≤ s2.length :=
        hres_len_err ((lenMono fuel).1 en s out v0 dotRhs) h2
      rw [← hs, ht, scope_setVal_getElem_self (List.getElem?_eq_getElem (by omega)) v0]
      simp
    | panicked m => rw [h2] at h; simp at h
    | diverge => rw [h2] at h; simp at h
  · intro nv vp op e s1 o1 h
    rw [setDotVal, hget] at h
    simp only [] at h
    cases vt with
    | Constant =>
      simp only [ERes.err.injEq] at h
      obtain ⟨-, hs, -⟩ := h
      subst hs
      rw [(scopeGet_some hget).2]
      simp
    | Normal =>
      cases h2 : setDotValHelper fuel en s out v0 dotRhs nv vp with
      | ok v2 t2 s2 o2 => rw [h2] at h; simp at h
      | err e2 t2 s2 o2 =>
        rw [h2] at h
        simp only [ERes.err.injEq] at h
        obtain ⟨-, hs, -⟩ := h
        have ht : t2 = v0 :=
          hres_this_err ((thisPreserved H fuel).2 s out v0 dotRhs nv vp) h2
        have hlen : s.length ≤ s2.length :=
          hres_len_err ((lenMono fuel).2.2.2.2.1 en s out v0 dotRhs nv vp) h2
        rw [← hs, ht, scope_setVal_getElem_self (List.getElem?_eq_getElem (by omega)) v0]
        simp
      | panicked m => rw [h2] at h; simp at h
      | diverge => rw [h2] at h; simp at h

/-- Witness for C2 (amended) at a concrete input: with the argument-preserving
getter engine, a chain `x.p.q` fails at `q` and the root slot still holds the
pre-call value 5. -/
theorem dot_chain_root_writeback_witness :
    ((([⟨"x", .Normal, .vInt 5⟩] : Scope))[0]?).map Binding.value = some (.vInt 5) :=
  (dot_chain_root_writeback enGetId_argPreserving 8 [⟨"x", .Normal, .vInt 5⟩] out0
      "x" 0 (.Dot (.Property "p" 1) (.Property "q" 2) 9) 0 .Normal (.vInt 5) rfl).1
    (.ErrorDotExpr "- property 'q' unknown or write-only" 2)
    [⟨"x", .Normal, .vInt 5⟩] out0 rfl

/-- Counterexample to C2 as stated: with a host getter that mutates its `this`
payload (host callables receive mutable borrows), a failing read chain `x.p.q`
leaves the root slot holding the mutated copy 999, not its pre-call value 0 —
the writeback above the failure point is performed. -/
theorem dot_chain_failure_mutates_root_cx :
    getDotVal 9 enMutGet [⟨"x", .Normal, .vInt 0⟩] out0 (.Variable "x" 0)
        (.Dot (.Property "p" 1) (.Property "q" 2) 9) =
      .err (.ErrorDotExpr "- property 'q' unknown or write-only" 2)
        [⟨"x", .Normal, .vInt 999⟩] out0 ∧
    Scope.get [⟨"x", .Normal, .vInt 0⟩] "x" = some (0, .Normal, .vInt 0) ∧
    (Dynamic.vInt 999 = Dynamic.vInt 0 → False) := by
  refine ⟨rfl, rfl, ?_⟩
  intro h
  injection h with h2
  omega

/-- **C6** (amended): every assignment whose left-hand side is a Constant
variable, an index expression whose resolved root is Constant, or a dot chain
rooted at a Constant variable fails with `ErrorAssignmentToConstant`; and when
every registered host function leaves its argument payloads unchanged, a read
dot chain rooted at a Constant leaves the constant's slot value unchanged on
the ok path and the err path alike. -/
theorem constant_protection (en : Engine) (fuel : Nat) (s : Scope) (out : Output) :
    (∀ (name : String) (vpos opPos : Pos) (rhs : Expr) (idx : Nat) (v1 rv : Dynamic)
        (s1 : Scope) (o1 : Output),
      evalExpr fuel en s out rhs = .ok rv s1 o1 →
      Scope.get s1 name = some (idx, .Constant, v1) →
      evalExpr (fuel + 1) en s out (.Assignment (.Variable name vpos) rhs opPos) =
        .err (.ErrorAssignmentToConstant name opPos) s1 o1) ∧
    (∀ (idxLhs idxExpr rhs : Expr) (idxPos opPos : Pos) (rv : Dynamic)
        (s1 s2 : Scope) (o1 o2 : Output) (st : IndexSourceType) (rid : String)
        (ridx i : Nat) (tv : Dynamic),
      evalExpr fuel en s out rhs = .ok rv s1 o1 →
      evalIndexExpr fuel en s1 o1 idxLhs idxExpr idxPos =
        .ok (st, some (rid, .Constant, ridx), i, tv) s2 o2 →
      evalExpr (fuel + 1) en s out (.Assignment (.Index idxLhs idxExpr idxPos) rhs opPos) =
        .err (.ErrorAssignmentToConstant rid idxLhs.position) s2 o2) ∧
    (∀ (rootid : String) (rpos dpos opPos : Pos) (dotRhs rhs : Expr) (idx : Nat)
        (v1 rv : Dynamic) (s1 : Scope) (o1 : Output),
      evalExpr (fuel + 1) en s out rhs = .ok rv s1 o1 →
      Scope.get s1 rootid = some (idx, .Constant, v1) →
      evalExpr (fuel + 2) en s out
          (.Assignment (.Dot (.Variable rootid rpos) dotRhs dpos) rhs opPos) =
        .err (.ErrorAssignmentToConstant rootid opPos) s1 o1) ∧
    (ArgPreserving en →
      ∀ (id : String) (pos : Pos) (dotRhs : Expr) (idx : Nat) (v0 : Dynamic),
        Scope.get s id = some (idx, .Constant, v0) →
        (∀ v s1 o1, getDotVal (fuel + 1) en s out (.Variable id pos) dotRhs = .ok v s1 o1 →
          (s1[idx]?).map Binding.value = some v0) ∧
        (∀ e s1 o1, getDotVal (fuel + 1) en s out (.Variable id pos) dotRhs = .err e s1 o1 →
          (s1[idx]?).map Binding.value = some v0)) := by
  refine ⟨?_, ?_, ?_, ?_⟩
  · intro name vpos opPos rhs idx v1 rv s1 o1 hrhs hget
    rw [evalExpr, hrhs]
    simp only []
    rw [hget]
  · intro idxLhs idxExpr rhs idxPos opPos rv s1 s2 o1 o2 st rid ridx i tv hrhs hidx
    rw [evalExpr, hrhs]
    simp only []
    rw [hidx]
  · intro rootid rpos dpos opPos dotRhs rhs idx v1 rv s1 o1 hrhs hget
    rw [evalExpr, hrhs]
    simp only []
    rw [setDotVal, hget]
  · intro H id pos dotRhs idx v0 hget
    have hidx : idx < s.length := (scopeGet_some hget).1
    constructor
    · intro v s1 o1 h
      rw [getDotVal, hget] at h
      simp only [] at h
      cases h2 : getDotValHelper fuel en s out v0 dotRhs with
      | ok v2 t2 s2 o2 =>
        rw [h2] at h
        simp only [ERes.ok.injEq] at h
        obtain ⟨-, hs, -⟩ := h
        have ht : t2 = v0 := hres_this_ok ((thisPreserved H fuel).1 s out v0 dotRhs) h2
        have hlen : s.length ≤ s2.length :=
          hres_len_ok ((lenMono fuel).1 en s out v0 dotRhs) h2
        rw [← hs, ht, scope_setVal_getElem_self (List.getElem?_eq_getElem (by omega)) v0]
        simp
      | err e2 t2 s2 o2 => rw [h2] at h; simp at h
      | panicked m => rw [h2] at h; simp at h
      | diverge => rw [h2] at h; simp at h
    · intro e s1 o1 h
      rw [getDotVal, hget] at h
      simp only [] at h
      cases h2 : getDotValHelper fuel en s out v0 dotRhs with
      | ok v2 t2 s2 o2 => rw [h2] at h; simp at h
      | err e2 t2 s2 o2 =>
        rw [h2] at h
        simp only [ERes.err.injEq] at h
        obtain ⟨-, hs, -⟩ := h
        have ht : t2 = v0 := hres_this_err ((thisPreserved H fuel).1 s out v0 dotRhs) h2
        have hlen : s.length ≤ s2.length :=
          hres_len_err ((lenMono fuel).1 en s out v0 dotRhs) h2
        rw [← hs, ht, scope_setVal_getElem_self (List.getElem?_eq_getElem (by omega)) v0]
        simp
      | panicked m => rw [h2] at h; simp at h
      | diverge => rw [h2] at h; simp at h

/-- Witness for C6 (amended) at a concrete input: assigning 8 to the constant
`k` fails with the assignment-to-constant error and the scope is unchanged. -/
theorem constant_protection_witness :
    evalExpr (8 + 1) emptyEngine [⟨"k", .Constant, .vInt 7⟩] out0
        (.Assignment (.Variable "k" 1) (.IntegerConstant 8 0) 2) =
      .err (.ErrorAssignmentToConstant "k" 2) [⟨"k", .Constant, .vInt 7⟩] out0 :=
  (constant_protection emptyEngine 8 [⟨"k", .Constant, .vInt 7⟩] out0).1
    "k" 1 2 (.IntegerConstant 8 0) 0 (.vInt 7) (.vInt 8)
    [⟨"k", .Constant, .vInt 7⟩] out0 rfl rfl

/-- Counterexample to C6 as stated: a read dot chain `k.p` rooted at the
Constant `k`, with a host getter that mutates its `this` payload, succeeds and
writes the mutated copy 999 back into the constant's slot — the constant's
value is modified through this code path. -/
theorem const_modified_by_getter_cx :
    evalExpr 9 enMutGet [⟨"k", .Constant, .vInt 0⟩] out0
        (.Dot (.Variable "k" 0) (.Property "p" 1) 2) =
      .ok (.vInt 1) [⟨"k", .Constant, .vInt 999⟩] out0 ∧
    (Dynamic.vInt 999 = Dynamic.vInt 0 → False) := by
  refine ⟨rfl, ?_⟩
  intro h
  injection h with h2
  omega

/-- **C8**: when the dispatcher (no script match) finds a host function under
"print" or "debug" and it returns a string, that string is appended to the
host's print or debug sink respectively and the call returns unit with the
host-updated argument payloads. -/
theorem print_debug_routing (en : Engine) (fuel : Nat) (out : Output)
    (args : List Dynamic) (dv : Option Dynamic) (pos : Pos) (f g : HostFn)
    (msg : List Char) (args2 : List Dynamic) :
    (binarySearchBy (fun fd => fd.compare "print" args.length) en.script_functions = none →
      en.ext_functions "print" (args.map Dynamic.typeId) = some f →
      f args pos = .ok (.vStr msg) args2 →
      callFnRaw (fuel + 1) en out "print" args dv pos =
        .ok .vUnit args2 ⟨out.printLog ++ [msg], out.debugLog⟩) ∧
    (binarySearchBy (fun fd => fd.compare "debug" args.length) en.script_functions = none →
      en.ext_functions "debug" (args.map Dynamic.typeId) = some g →
      g args pos = .ok (.vStr msg) args2 →
      callFnRaw (fuel + 1) en out "debug" args dv pos =
        .ok .vUnit args2 ⟨out.printLog, out.debugLog ++ [msg]⟩) := by
  constructor
  · intro h1 h2 h3
    cases dv with
    | none =>
      rw [callFnRaw, h1]
      simp only []
      rw [h2]
      simp only []
      rw [h3]
      simp [stringOrErrMsg]
    | some dvv =>
      rw [callFnRaw, h1]
      simp only []
      rw [h2]
      simp only []
      rw [h3]
      simp [stringOrErrMsg]
  · intro h1 h2 h3
    cases dv with
    | none =>
      rw [callFnRaw, h1]
      simp only []
      rw [h2]
      simp only []
      rw [h3]
      simp [stringOrErrMsg]
    | some dvv =>
      rw [callFnRaw, h1]
      simp only []
      rw [h2]
      simp only []
      rw [h3]
      simp [stringOrErrMsg]

/-- Witness for C8 at a concrete input: calling `print` on the string "hi" with
the print/debug engine appends "hi" to the print sink and returns unit. -/
theorem print_debug_routing_witness :
    callFnRaw (8 + 1) enPrint out0 "print" [.vStr "hi".toList] none 0 =
      .ok .vUnit [.vStr "hi".toList] ⟨out0.printLog ++ ["hi".toList], out0.debugLog⟩ :=
  (print_debug_routing enPrint 8 out0 [.vStr "hi".toList] none 0 printFn printFn
      "hi".toList [.vStr "hi".toList]).1 rfl rfl rfl

end Rhai
